import Mathlib

/-!
# Verification of the relative-protocol engine bridge core

Shallow embedding, in Lean 4, of the parts of the Rust crate
`engine-bridge` that the checked claims are about:

* the packet codec (`device/mod.rs`: `parse_packet_validated` and the
  `TunHandle` ring with `push_inbound`),
* the frame builders and checksums
  (`flow_manager/packet_builder.rs`, `flow_manager/checksum.rs`),
* per-flow dial retry (`flow_manager/dial.rs`, `flow_manager/state.rs`),
* payload buffering and the memory tracker (`flow_manager/state.rs`),
* the policy store (`policy/mod.rs`),
* the DNS snooper (`dns/mod.rs`).

Machine integers are modelled as `Nat` with explicit truncation
(`% 256`, `% 2 ^ 16`, `% 2 ^ 32`) at the places where the Rust code
casts or relies on a fixed-width type.  Byte buffers are `List Nat`
whose elements are intended to lie below 256; where a statement needs
that bound it is a hypothesis.  Rust slice expressions that can panic
are modelled with a checked slice returning `Option`; a `none` result
marks a panic of the original code.  `std::time::Instant` is modelled
as a `Nat` count of milliseconds.
-/

set_option maxRecDepth 10000

namespace EngineBridge

/-! ## Byte-level helpers -/

/-- Read the byte at index `i` (Rust `buf[i]` on an index that is known
to be in bounds; out-of-bounds reads never happen where this is used,
`0` is returned only for out-of-range model inputs). -/
def byteAt (l : List Nat) (i : Nat) : Nat := l.getD i 0

/-- Checked slice `l[a..b]`: `none` models a Rust slice-bounds panic. -/
def sliceChecked (l : List Nat) (a b : Nat) : Option (List Nat) :=
  if a ≤ b ∧ b ≤ l.length then some ((l.drop a).take (b - a)) else none

/-- `u16::from_be_bytes([a, b])`. -/
def beU16 (a b : Nat) : Nat := a * 256 + b

/-- `u32::from_be_bytes([a, b, c, d])`. -/
def beU32 (a b c d : Nat) : Nat :=
  a * 16777216 + b * 65536 + c * 256 + d

/-- `(n as u16).to_be_bytes()`: the two big-endian bytes of the low
16 bits of `n`. -/
def be16 (n : Nat) : List Nat := [n / 256 % 256, n % 256]

/-- `(n as u32).to_be_bytes()`: the four big-endian bytes of the low
32 bits of `n`. -/
def be32 (n : Nat) : List Nat :=
  [n / 16777216 % 256, n / 65536 % 256, n / 256 % 256, n % 256]

theorem be16_length (n : Nat) : (be16 n).length = 2 := rfl

theorem be32_length (n : Nat) : (be32 n).length = 4 := rfl

theorem beU16_be16 (n : Nat) (h : n < 65536) :
    beU16 (be16 n).headI (be16 n).tail.headI = n := by
  simp only [be16, beU16, List.headI, List.tail]
  omega

/-! ## Memory tracker (`flow_manager/state.rs`, claim C9) -/

/-- `UDP_PACKET_METADATA` from `flow_manager/state.rs`. -/
def UDP_PACKET_METADATA : Nat := 32

/-- `SocketBudget` from `flow_manager/state.rs`. -/
structure SocketBudget where
  memory_budget : Nat
  tcp_rx_buffer_size : Nat
  tcp_tx_buffer_size : Nat
  udp_buffer_size : Nat
  deriving Repr, DecidableEq

/-- `SocketBudget::tcp_socket_cost`. -/
def SocketBudget.tcp_socket_cost (b : SocketBudget) : Nat :=
  b.tcp_rx_buffer_size + b.tcp_tx_buffer_size

/-- `SocketBudget::udp_socket_cost`. -/
def SocketBudget.udp_socket_cost (b : SocketBudget) : Nat :=
  b.udp_buffer_size * 2 + UDP_PACKET_METADATA * 16

/-- `MemoryTracker` from `flow_manager/state.rs`. -/
structure MemoryTracker where
  current_usage : Nat
  budget : SocketBudget
  tcp_socket_count : Nat
  udp_socket_count : Nat
  deriving Repr, DecidableEq

/-- `MemoryTracker::new`. -/
def MemoryTracker.new (budget : SocketBudget) : MemoryTracker :=
  { current_usage := 0, budget := budget
    tcp_socket_count := 0, udp_socket_count := 0 }

/-- `MemoryTracker::can_allocate_tcp`. -/
def MemoryTracker.can_allocate_tcp (m : MemoryTracker) : Prop :=
  m.current_usage + m.budget.tcp_socket_cost ≤ m.budget.memory_budget

/-- `MemoryTracker::can_allocate_udp`. -/
def MemoryTracker.can_allocate_udp (m : MemoryTracker) : Prop :=
  m.current_usage + m.budget.udp_socket_cost ≤ m.budget.memory_budget

/-- `MemoryTracker::allocate_tcp`. -/
def MemoryTracker.allocate_tcp (m : MemoryTracker) : MemoryTracker :=
  { m with current_usage := m.current_usage + m.budget.tcp_socket_cost
           tcp_socket_count := m.tcp_socket_count + 1 }

/-- `MemoryTracker::allocate_udp`. -/
def MemoryTracker.allocate_udp (m : MemoryTracker) : MemoryTracker :=
  { m with current_usage := m.current_usage + m.budget.udp_socket_cost
           udp_socket_count := m.udp_socket_count + 1 }

/-- `MemoryTracker::deallocate_tcp` (`saturating_sub` is `Nat.sub`). -/
def MemoryTracker.deallocate_tcp (m : MemoryTracker) : MemoryTracker :=
  { m with current_usage := m.current_usage - m.budget.tcp_socket_cost
           tcp_socket_count := m.tcp_socket_count - 1 }

/-- `MemoryTracker::deallocate_udp` (`saturating_sub` is `Nat.sub`). -/
def MemoryTracker.deallocate_udp (m : MemoryTracker) : MemoryTracker :=
  { m with current_usage := m.current_usage - m.budget.udp_socket_cost
           udp_socket_count := m.udp_socket_count - 1 }

/-- One call against the tracker. -/
inductive TrackerOp where
  | allocTcp
  | allocUdp
  | deallocTcp
  | deallocUdp
  deriving Repr, DecidableEq

/-- Apply one tracker operation. -/
def applyTrackerOp (m : MemoryTracker) : TrackerOp → MemoryTracker
  | .allocTcp => m.allocate_tcp
  | .allocUdp => m.allocate_udp
  | .deallocTcp => m.deallocate_tcp
  | .deallocUdp => m.deallocate_udp

/-- Apply a sequence of tracker operations, first element first. -/
def runTrackerOps (m : MemoryTracker) (ops : List TrackerOp) : MemoryTracker :=
  ops.foldl applyTrackerOp m

/-- The sequence never deallocates a kind more often than it was
allocated before: `t`/`u` count the TCP/UDP sockets currently live. -/
def TrackerOpsValid : Nat → Nat → List TrackerOp → Prop
  | _, _, [] => True
  | t, u, .allocTcp :: rest => TrackerOpsValid (t + 1) u rest
  | t, u, .allocUdp :: rest => TrackerOpsValid t (u + 1) rest
  | t, u, .deallocTcp :: rest => 0 < t ∧ TrackerOpsValid (t - 1) u rest
  | t, u, .deallocUdp :: rest => 0 < u ∧ TrackerOpsValid t (u - 1) rest

instance : ∀ t u ops, Decidable (TrackerOpsValid t u ops) := by
  intro t u ops
  induction ops generalizing t u with
  | nil => exact .isTrue trivial
  | cons op rest ih =>
    cases op <;> simp only [TrackerOpsValid] <;> exact inferInstance

/-- The accounting equation of claim C9. -/
def trackerAccounted (m : MemoryTracker) : Prop :=
  m.current_usage =
    m.tcp_socket_count * m.budget.tcp_socket_cost +
      m.udp_socket_count * m.budget.udp_socket_cost

instance (m : MemoryTracker) : Decidable (trackerAccounted m) := by
  unfold trackerAccounted; exact inferInstance

theorem acct_alloc_left (t u cT cU x : Nat) (hm : x = t * cT + u * cU) :
    x + cT = (t + 1) * cT + u * cU := by
  subst hm; ring

theorem acct_alloc_right (t u cT cU x : Nat) (hm : x = t * cT + u * cU) :
    x + cU = t * cT + (u + 1) * cU := by
  subst hm; ring

theorem acct_dealloc_left (t u cT cU x : Nat) (ht : 0 < t)
    (hm : x = t * cT + u * cU) : x - cT = (t - 1) * cT + u * cU := by
  obtain ⟨s, rfl⟩ : ∃ s, t = s + 1 := ⟨t - 1, by omega⟩
  subst hm
  simp only [Nat.succ_mul, Nat.add_sub_cancel]
  omega

theorem acct_dealloc_right (t u cT cU x : Nat) (hu : 0 < u)
    (hm : x = t * cT + u * cU) : x - cU = t * cT + (u - 1) * cU := by
  obtain ⟨s, rfl⟩ : ∃ s, u = s + 1 := ⟨u - 1, by omega⟩
  subst hm
  simp only [Nat.succ_mul, Nat.add_sub_cancel]
  omega

theorem runTrackerOps_counts (m : MemoryTracker) (ops : List TrackerOp)
    (h : TrackerOpsValid m.tcp_socket_count m.udp_socket_count ops)
    (hm : trackerAccounted m) :
    trackerAccounted (runTrackerOps m ops) := by
  induction ops generalizing m with
  | nil => exact hm
  | cons op rest ih =>
    cases op with
    | allocTcp =>
      refine ih m.allocate_tcp ?_ ?_
      · simpa [MemoryTracker.allocate_tcp] using h
      · exact acct_alloc_left _ _ _ _ _ hm
    | allocUdp =>
      refine ih m.allocate_udp ?_ ?_
      · simpa [MemoryTracker.allocate_udp] using h
      · exact acct_alloc_right _ _ _ _ _ hm
    | deallocTcp =>
      obtain ⟨hpos, hrest⟩ := h
      refine ih m.deallocate_tcp ?_ ?_
      · simpa [MemoryTracker.deallocate_tcp] using hrest
      · exact acct_dealloc_left _ _ _ _ _ hpos hm
    | deallocUdp =>
      obtain ⟨hpos, hrest⟩ := h
      refine ih m.deallocate_udp ?_ ?_
      · simpa [MemoryTracker.deallocate_udp] using hrest
      · exact acct_dealloc_right _ _ _ _ _ hpos hm

/-- C9: starting from a fresh `MemoryTracker`, any valid sequence of
allocate/deallocate calls keeps `current_usage` equal to the summed
cost of live sockets; each single operation preserves the equation;
and `can_allocate_tcp`/`can_allocate_udp` hold exactly when the
respective cost still fits the budget. -/
theorem memory_tracker_accounting (budget : SocketBudget)
    (ops : List TrackerOp) (hops : TrackerOpsValid 0 0 ops) :
    trackerAccounted (runTrackerOps (MemoryTracker.new budget) ops) ∧
    (∀ m : MemoryTracker, ∀ op : TrackerOp,
      trackerAccounted m →
      (op = .deallocTcp → 0 < m.tcp_socket_count) →
      (op = .deallocUdp → 0 < m.udp_socket_count) →
      trackerAccounted (applyTrackerOp m op)) ∧
    (∀ m : MemoryTracker,
      (m.can_allocate_tcp ↔
        m.current_usage + m.budget.tcp_socket_cost ≤ m.budget.memory_budget) ∧
      (m.can_allocate_udp ↔
        m.current_usage + m.budget.udp_socket_cost ≤ m.budget.memory_budget)) := by
  refine ⟨?_, ?_, ?_⟩
  · exact runTrackerOps_counts _ ops hops (by simp [trackerAccounted, MemoryTracker.new])
  · intro m op hm ht hu
    cases op with
    | allocTcp => exact acct_alloc_left _ _ _ _ _ hm
    | allocUdp => exact acct_alloc_right _ _ _ _ _ hm
    | deallocTcp => exact acct_dealloc_left _ _ _ _ _ (ht rfl) hm
    | deallocUdp => exact acct_dealloc_right _ _ _ _ _ (hu rfl) hm
  · intro m
    exact ⟨Iff.rfl, Iff.rfl⟩

/-- Witness for C9 at a concrete operation sequence. -/
theorem memory_tracker_accounting_witness :
    TrackerOpsValid 0 0
      [.allocTcp, .allocUdp, .allocTcp, .deallocTcp, .deallocUdp] ∧
    trackerAccounted
      (runTrackerOps
        (MemoryTracker.new ⟨4194304, 4096, 4096, 4096⟩)
        [.allocTcp, .allocUdp, .allocTcp, .deallocTcp, .deallocUdp]) := by
  refine ⟨by decide, ?_⟩
  exact (memory_tracker_accounting ⟨4194304, 4096, 4096, 4096⟩
    [.allocTcp, .allocUdp, .allocTcp, .deallocTcp, .deallocUdp] (by decide)).1

/-! ## Payload buffering (`flow_manager/state.rs`, claim C7)

`buffer_payload` reads and writes only the `buffered` queue and the
`buffered_bytes` counter of a `FlowEntry`; the model carries exactly
those two fields.  The queue is a `List` whose head is the front of
the `VecDeque` (the oldest element).  The two caps are compile-time
configuration (`4`/`8 * 1024` on the embedded profile, `8`/`64 * 1024`
on the desktop profile), so the model takes them as parameters. -/

/-- Desktop-profile `MAX_BUFFERED_PAYLOADS`. -/
def MAX_BUFFERED_PAYLOADS : Nat := 8

/-- Desktop-profile `MAX_BUFFERED_BYTES`. -/
def MAX_BUFFERED_BYTES : Nat := 64 * 1024

/-- Embedded-profile `MAX_BUFFERED_PAYLOADS`. -/
def MAX_BUFFERED_PAYLOADS_IOS : Nat := 4

/-- Embedded-profile `MAX_BUFFERED_BYTES`. -/
def MAX_BUFFERED_BYTES_IOS : Nat := 8 * 1024

/-- The `buffered` / `buffered_bytes` fields of `FlowEntry`. -/
structure BufferState where
  buffered : List (List Nat)
  buffered_bytes : Nat
  deriving Repr, DecidableEq

/-- The eviction loop of `buffer_payload`: while the queue is at the
payload cap or the byte cap would be exceeded, pop the front
(`saturating_sub` is `Nat.sub`); `break` when the queue is empty. -/
def evictLoop (maxP maxB pLen : Nat) :
    List (List Nat) → Nat → List (List Nat) × Nat
  | [], bytes => ([], bytes)
  | evicted :: rest, bytes =>
    if maxP ≤ (evicted :: rest).length ∨ maxB < bytes + pLen then
      evictLoop maxP maxB pLen rest (bytes - evicted.length)
    else (evicted :: rest, bytes)

/-- `buffer_payload` from `flow_manager/state.rs`, returning the new
buffer state and the `bool` result. -/
def buffer_payload (maxP maxB : Nat) (entry : BufferState)
    (payload : List Nat) : BufferState × Bool :=
  if payload.isEmpty then (entry, true)
  else if maxB < payload.length then (entry, false)
  else
    let (q, bytes) := evictLoop maxP maxB payload.length
      entry.buffered entry.buffered_bytes
    if maxP ≤ q.length ∨ maxB < bytes + payload.length then
      ({ buffered := q, buffered_bytes := bytes }, false)
    else
      ({ buffered := q ++ [payload], buffered_bytes := bytes + payload.length },
        true)

/-- Deliver a list of payloads in order; the `Bool` is true when every
call returned true. -/
def bufferAll (maxP maxB : Nat) (entry : BufferState)
    (payloads : List (List Nat)) : BufferState × Bool :=
  payloads.foldl
    (fun acc p =>
      let (st, ok) := buffer_payload maxP maxB acc.1 p
      (st, acc.2 && ok))
    (entry, true)

/-- Sum of the lengths of the queued payloads. -/
def totalBytes (payloads : List (List Nat)) : Nat :=
  (payloads.map List.length).sum

theorem totalBytes_nil : totalBytes [] = 0 := rfl

theorem totalBytes_cons (p : List Nat) (ps : List (List Nat)) :
    totalBytes (p :: ps) = p.length + totalBytes ps := by
  simp [totalBytes]

theorem totalBytes_append (a b : List (List Nat)) :
    totalBytes (a ++ b) = totalBytes a + totalBytes b := by
  simp [totalBytes]

theorem evictLoop_no_evict (maxP maxB pLen : Nat) (q : List (List Nat))
    (bytes : Nat) (hlen : q.length < maxP) (hbytes : bytes + pLen ≤ maxB) :
    evictLoop maxP maxB pLen q bytes = (q, bytes) := by
  cases q with
  | nil => rfl
  | cons e rest =>
    simp only [evictLoop,
      if_neg (by simp at hlen ⊢; omega :
        ¬(maxP ≤ (e :: rest).length ∨ maxB < bytes + pLen))]

theorem buffer_payload_fits (maxP maxB : Nat) (entry : BufferState)
    (payload : List Nat) (hne : ¬payload.isEmpty)
    (hlen : entry.buffered.length < maxP)
    (hbytes : entry.buffered_bytes + payload.length ≤ maxB) :
    buffer_payload maxP maxB entry payload =
      ({ buffered := entry.buffered ++ [payload],
         buffered_bytes := entry.buffered_bytes + payload.length }, true) := by
  unfold buffer_payload
  rw [if_neg (by simpa using hne), if_neg (by omega),
    evictLoop_no_evict maxP maxB payload.length entry.buffered
      entry.buffered_bytes hlen hbytes]
  simp only [if_neg (by omega : ¬(maxP ≤ entry.buffered.length ∨
    maxB < entry.buffered_bytes + payload.length))]

theorem bufferAll_fits (maxP maxB : Nat) (entry : BufferState)
    (payloads : List (List Nat))
    (hne : ∀ p ∈ payloads, ¬p.isEmpty)
    (hcount : entry.buffered.length + payloads.length ≤ maxP)
    (hbytes : entry.buffered_bytes + totalBytes payloads ≤ maxB) :
    bufferAll maxP maxB entry payloads =
      ({ buffered := entry.buffered ++ payloads,
         buffered_bytes := entry.buffered_bytes + totalBytes payloads }, true) := by
  induction payloads generalizing entry with
  | nil => simp [bufferAll, totalBytes]
  | cons p rest ih =>
    have hp : ¬p.isEmpty := hne p (by simp)
    have hstep := buffer_payload_fits maxP maxB entry p hp
      (by simp at hcount; omega)
      (by simp [totalBytes] at hbytes; omega)
    have htail := ih
      { buffered := entry.buffered ++ [p],
        buffered_bytes := entry.buffered_bytes + p.length }
      (fun q hq => hne q (by simp [hq]))
      (by simp at hcount ⊢; omega)
      (by simp [totalBytes] at hbytes ⊢; omega)
    simp only [bufferAll, List.foldl_cons, hstep] at htail ⊢
    simpa [totalBytes, Nat.add_assoc] using htail

/-- C7: on a not-yet-ready flow entry with an empty buffer, delivering
`maxP + 1` non-empty payloads (each within the byte cap, total within
the byte cap) through `buffer_payload` returns true on every call and
leaves exactly `maxP` payloads: the first one delivered is evicted and
the rest survive in order, the latest at the back. -/
theorem buffered_payload_cap (maxP maxB : Nat) (hmaxP : 0 < maxP)
    (first : List Nat) (rest : List (List Nat))
    (hcount : rest.length = maxP)
    (hne : ∀ p ∈ first :: rest, ¬p.isEmpty)
    (hbytes : totalBytes (first :: rest) ≤ maxB) :
    bufferAll maxP maxB ⟨[], 0⟩ (first :: rest) =
      (⟨rest, totalBytes rest⟩, true) ∧ rest.length = maxP := by
  refine ⟨?_, hcount⟩
  have hfirst : ¬first.isEmpty := hne first (by simp)
  -- split the run: the first maxP payloads (first :: front) fit without
  -- eviction, the last one evicts exactly `first`.
  obtain ⟨last, front, hrest⟩ : ∃ last front, rest = front ++ [last] := by
    rcases List.eq_nil_or_concat rest with h | ⟨front, last, h⟩
    · subst h; simp at hcount; omega
    · exact ⟨last, front, by simpa [List.concat_eq_append] using h⟩
  subst hrest
  have hfrontlen : (first :: front).length = maxP := by
    simp at hcount ⊢; omega
  have hbytesSplit : first.length + totalBytes front + last.length ≤ maxB := by
    rw [totalBytes_cons, totalBytes_append, totalBytes_cons, totalBytes_nil]
      at hbytes
    omega
  have hfill : bufferAll maxP maxB ⟨[], 0⟩ (first :: front) =
      (⟨first :: front, first.length + totalBytes front⟩, true) := by
    have := bufferAll_fits maxP maxB ⟨[], 0⟩ (first :: front)
      (by
        intro q hq
        apply hne
        simp at hq ⊢
        tauto)
      (by simp at hfrontlen ⊢; omega)
      (by
        show 0 + totalBytes (first :: front) ≤ maxB
        rw [totalBytes_cons]
        omega)
    simpa [totalBytes_cons] using this
  -- final push: queue is full, evict exactly the head, then append.
  have hlast : ¬last.isEmpty := hne last (by simp)
  have hevict :
      evictLoop maxP maxB last.length (first :: front)
        (first.length + totalBytes front) =
        (front, totalBytes front) := by
    simp only [evictLoop]
    rw [if_pos (Or.inl (by simpa using hfrontlen.ge))]
    have hsub : first.length + totalBytes front - first.length = totalBytes front := by
      omega
    rw [hsub]
    exact evictLoop_no_evict maxP maxB last.length front (totalBytes front)
      (by simp at hfrontlen ⊢; omega) (by omega)
  have hpush :
      buffer_payload maxP maxB
        ⟨first :: front, first.length + totalBytes front⟩ last =
        (⟨front ++ [last], totalBytes front + last.length⟩, true) := by
    unfold buffer_payload
    rw [if_neg (by simpa using hlast), if_neg (by omega)]
    simp only [hevict]
    rw [if_neg (by
      push_neg
      constructor
      · simp at hfrontlen ⊢; omega
      · omega)]
  -- assemble the full run
  have hgoal : bufferAll maxP maxB ⟨[], 0⟩ ((first :: front) ++ [last]) =
      (⟨front ++ [last], totalBytes front + last.length⟩, true) := by
    unfold bufferAll at hfill ⊢
    rw [List.foldl_append, hfill]
    simp only [List.foldl_cons, List.foldl_nil, hpush, Bool.true_and]
  have hcast : totalBytes (front ++ [last]) = totalBytes front + last.length := by
    rw [totalBytes_append, totalBytes_cons]
    simp [totalBytes]
  rw [show first :: (front ++ [last]) = (first :: front) ++ [last] by simp,
    hgoal, hcast]

/-- Witness for C7 on the desktop profile: nine one-byte payloads
against `MAX_BUFFERED_PAYLOADS = 8`. -/
theorem buffered_payload_cap_witness :
    bufferAll MAX_BUFFERED_PAYLOADS MAX_BUFFERED_BYTES ⟨[], 0⟩
        [[1], [2], [3], [4], [5], [6], [7], [8], [9]] =
      (⟨[[2], [3], [4], [5], [6], [7], [8], [9]],
        totalBytes [[2], [3], [4], [5], [6], [7], [8], [9]]⟩, true) := by
  exact (buffered_payload_cap MAX_BUFFERED_PAYLOADS MAX_BUFFERED_BYTES
    (by decide) [1] [[2], [3], [4], [5], [6], [7], [8], [9]]
    (by decide) (by decide) (by decide)).1

/-! ## TUN ring ingress (`device/mod.rs`, claims C8 and C10) -/

/-- `TunHandle::validate_ipv4`. -/
def validate_ipv4 (packet : List Nat) : Bool :=
  if packet.length < 20 then false
  else
    let ihl := byteAt packet 0 % 16
    let header_len := ihl * 4
    if ihl < 5 ∨ packet.length < header_len then false
    else
      let total_len := beU16 (byteAt packet 2) (byteAt packet 3)
      if total_len < header_len ∨ packet.length < total_len then false
      else true

/-- `TunHandle::validate_ipv6`. -/
def validate_ipv6 (packet : List Nat) : Bool :=
  if packet.length < 40 then false
  else
    let payload_len := beU16 (byteAt packet 4) (byteAt packet 5)
    if packet.length < 40 + payload_len then false
    else true

/-- `TunHandle::validate_packet`. -/
def validate_packet (packet : List Nat) : Bool :=
  if packet.isEmpty then false
  else
    match byteAt packet 0 / 16 with
    | 4 => validate_ipv4 packet
    | 6 => validate_ipv6 packet
    | _ => false

/-- `TunHandle::push_inbound`: the inbound ring is a `List` whose head
is the oldest entry; returns the new ring and the `bool` result.  The
`wake.notify_one` side effect has no state in the model. -/
def push_inbound (mtu capacity : Nat) (inbound : List (List Nat))
    (packet : List Nat) : List (List Nat) × Bool :=
  if packet.isEmpty then (inbound, true)
  else if ¬validate_packet packet then (inbound, false)
  else
    let popped := if capacity ≤ inbound.length then inbound.drop 1 else inbound
    (popped ++ [packet.take mtu], true)

/-- `TunDevice::new` clamps the ring capacity to at least 16 and the
MTU to at least 576. -/
def tunDeviceCapacity (ring_capacity : Nat) : Nat := max ring_capacity 16

/-- MTU clamp from `TunDevice::new`. -/
def tunDeviceMtu (mtu : Nat) : Nat := max mtu 576

/-- C8: `push_inbound` of a valid packet onto a ring already holding
`capacity` entries removes exactly the one oldest entry and appends
the new packet at the back (so FIFO order of the survivors is kept),
the ring length never exceeds the capacity, and every push with a
valid packet succeeds (returns `true`, never blocking the producer). -/
theorem push_inbound_overflow (mtu capacity : Nat) (inbound : List (List Nat))
    (packet : List Nat) (hcap : 0 < capacity)
    (hne : ¬packet.isEmpty) (hvalid : validate_packet packet) :
    (inbound.length = capacity →
      push_inbound mtu capacity inbound packet =
        (inbound.drop 1 ++ [packet.take mtu], true)) ∧
    (inbound.length ≤ capacity →
      (push_inbound mtu capacity inbound packet).1.length ≤ capacity) ∧
    (push_inbound mtu capacity inbound packet).2 = true := by
  have hpush : push_inbound mtu capacity inbound packet =
      ((if capacity ≤ inbound.length then inbound.drop 1 else inbound) ++
        [packet.take mtu], true) := by
    unfold push_inbound
    rw [if_neg (by simpa using hne), if_neg (by simpa using hvalid)]
  refine ⟨?_, ?_, by rw [hpush]⟩
  · intro hfull
    rw [hpush, if_pos (by omega)]
  · intro hle
    rw [hpush]
    by_cases hfull : capacity ≤ inbound.length
    · rw [if_pos hfull]
      simp
      omega
    · rw [if_neg hfull]
      simp
      omega

/-- Witness for C8: a full ring of two minimal IPv4 packets. -/
theorem push_inbound_overflow_witness :
    (0 < tunDeviceCapacity 2 ∧
      ¬(List.replicate 20 0 |>.set 0 69 |>.set 3 20).isEmpty ∧
      validate_packet (List.replicate 20 0 |>.set 0 69 |>.set 3 20)) ∧
    push_inbound 1280 (tunDeviceCapacity 2)
        (List.replicate (tunDeviceCapacity 2) [69])
        (List.replicate 20 0 |>.set 0 69 |>.set 3 20) =
      ((List.replicate (tunDeviceCapacity 2) [69]).drop 1 ++
        [(List.replicate 20 0 |>.set 0 69 |>.set 3 20).take 1280], true) := by
  refine ⟨⟨by decide, by decide, by decide⟩, ?_⟩
  exact (push_inbound_overflow 1280 (tunDeviceCapacity 2)
    (List.replicate (tunDeviceCapacity 2) [69])
    (List.replicate 20 0 |>.set 0 69 |>.set 3 20)
    (by decide) (by decide) (by decide)).1 (by decide)

/-- C10: `push_inbound` truncates a valid packet longer than the MTU
to its first `mtu` bytes before enqueueing, and an empty packet
returns `true` without enqueueing anything. -/
theorem push_inbound_mtu_truncation (mtu capacity : Nat)
    (inbound : List (List Nat)) (packet : List Nat)
    (hvalid : validate_packet packet) (hlong : mtu < packet.length) :
    (push_inbound mtu capacity inbound packet =
      ((if capacity ≤ inbound.length then inbound.drop 1 else inbound) ++
        [packet.take mtu], true)) ∧
    (packet.take mtu).length = mtu ∧
    (∀ ring : List (List Nat), push_inbound mtu capacity ring [] = (ring, true)) := by
  have hne : ¬packet.isEmpty := by
    cases packet with
    | nil => simp at hlong
    | cons a rest => simp
  refine ⟨?_, ?_, ?_⟩
  · unfold push_inbound
    rw [if_neg (by simpa using hne), if_neg (by simpa using hvalid)]
  · simp
    omega
  · intro ring
    unfold push_inbound
    rw [if_pos (by simp)]

/-- Witness for C10: a 1281-byte valid IPv4 packet against the default
1280-byte MTU. -/
theorem push_inbound_mtu_truncation_witness :
    (validate_packet (List.replicate 1281 0 |>.set 0 69 |>.set 2 5 |>.set 3 1) ∧
      1280 < (List.replicate 1281 0 |>.set 0 69 |>.set 2 5 |>.set 3 1).length) ∧
    push_inbound 1280 256 []
        (List.replicate 1281 0 |>.set 0 69 |>.set 2 5 |>.set 3 1) =
      ([(List.replicate 1281 0 |>.set 0 69 |>.set 2 5 |>.set 3 1).take 1280],
        true) := by
  have h := push_inbound_mtu_truncation 1280 256 []
    (List.replicate 1281 0 |>.set 0 69 |>.set 2 5 |>.set 3 1)
    (by decide) (by simp)
  exact ⟨⟨by decide, by simp⟩, by simpa using h.1⟩

/-! ## Dial retry protocol (`flow_manager/dial.rs`,
`flow_manager/state.rs`, claim C3)

The model keeps the per-flow fields that `on_dial_result` and
`dispatch_pending_dials` read or write, plus a `closed` flag and the
close reason recording what `notify_close` surfaced to the host (a
closed flow is removed from both maps, so later events find no entry).
Times are milliseconds. -/

/-- `MAX_DIAL_ATTEMPTS` from `flow_manager/state.rs`. -/
def MAX_DIAL_ATTEMPTS : Nat := 3

/-- `DIAL_BACKOFF_BASE_MS` from `flow_manager/state.rs`. -/
def DIAL_BACKOFF_BASE_MS : Nat := 50

/-- `dial_backoff_delay` from `flow_manager/state.rs`
(`saturating_sub` is `Nat.sub`, `1 << shift` is `2 ^ shift`). -/
def dial_backoff_delay (attempt : Nat) : Nat :=
  DIAL_BACKOFF_BASE_MS * 2 ^ (min (attempt - 1) 4)

/-- The dial-relevant state of one flow entry. -/
structure DialFlow where
  ready : Bool
  pending_dial : Bool
  dial_attempts : Nat
  next_redial_at : Option Nat
  dial_started_at : Option Nat
  closed : Bool
  close_reason : Option String
  deriving Repr, DecidableEq

/-- A freshly admitted flow (`FlowEntry` literal in
`flow_manager/mod.rs`): zero attempts and an immediate redial slot. -/
def admitFlow (now : Nat) : DialFlow :=
  { ready := false, pending_dial := false, dial_attempts := 0
    next_redial_at := some now, dial_started_at := none
    closed := false, close_reason := none }

/-- `FlowManager::on_dial_result` from `flow_manager/dial.rs`,
restricted to the fields of one flow.  A closed flow has been removed
from the handle map, so the event is ignored. -/
def on_dial_result (f : DialFlow) (success : Bool) (reason : Option String)
    (now : Nat) : DialFlow :=
  if f.closed then f
  else
    let f1 := { f with pending_dial := false, dial_started_at := none }
    if success then
      { f1 with ready := true, next_redial_at := none }
    else if f1.dial_attempts < MAX_DIAL_ATTEMPTS then
      { f1 with next_redial_at := some (now + dial_backoff_delay f1.dial_attempts) }
    else
      { f1 with closed := true,
                close_reason := some (reason.getD "dial_failed") }

/-- `FlowManager::dispatch_pending_dials` from `flow_manager/dial.rs`,
restricted to one flow: the `Bool` reports whether a dial request was
issued to the host. -/
def dispatch_pending_dials (f : DialFlow) (now : Nat) : DialFlow × Bool :=
  if f.closed then (f, false)
  else
    match f.next_redial_at with
    | none => (f, false)
    | some deadline =>
      if ¬f.ready ∧ ¬f.pending_dial ∧ f.dial_attempts < MAX_DIAL_ATTEMPTS ∧
          deadline ≤ now then
        ({ f with pending_dial := true
                  dial_attempts := f.dial_attempts + 1
                  next_redial_at := none
                  dial_started_at := some now }, true)
      else (f, false)

/-- One poll-then-failure round: the poll loop dispatches the pending
dial at `now`, then the host reports failure with `reason`. -/
def failRound (f : DialFlow) (now : Nat) (reason : String) :
    DialFlow × Bool :=
  let (f1, emitted) := dispatch_pending_dials f now
  (on_dial_result f1 false (some reason) now, emitted)

/-- C3: a failed dial with `dial_attempts < MAX_DIAL_ATTEMPTS` schedules
`next_redial_at = now + 50 ms * 2 ^ min(attempt - 1, 4)` and keeps the
flow open; a failed dial at `MAX_DIAL_ATTEMPTS` tears the flow down and
surfaces the received reason; and a flow whose three dials all fail
emits exactly 3 dial requests and exactly 1 close, with the last
received reason. -/
theorem dial_retry_protocol :
    (∀ (f : DialFlow) (now : Nat) (reason : Option String),
      f.closed = false → f.dial_attempts < MAX_DIAL_ATTEMPTS →
      (on_dial_result f false reason now).next_redial_at =
        some (now + 50 * 2 ^ min (f.dial_attempts - 1) 4) ∧
      (on_dial_result f false reason now).closed = false) ∧
    (∀ (f : DialFlow) (now : Nat) (reason : String),
      f.closed = false → f.dial_attempts = MAX_DIAL_ATTEMPTS →
      (on_dial_result f false (some reason) now).closed = true ∧
      (on_dial_result f false (some reason) now).close_reason = some reason) ∧
    (∀ (t0 t1 t2 : Nat) (r0 r1 r2 : String),
      t0 + 50 ≤ t1 → t1 + 100 ≤ t2 →
      let step0 := failRound (admitFlow t0) t0 r0
      let step1 := failRound step0.1 t1 r1
      let step2 := failRound step1.1 t2 r2
      step0.2 = true ∧ step1.2 = true ∧ step2.2 = true ∧
      step2.1.closed = true ∧ step2.1.close_reason = some r2 ∧
      step2.1.dial_attempts = MAX_DIAL_ATTEMPTS ∧
      (∀ t3, dispatch_pending_dials step2.1 t3 = (step2.1, false))) := by
  refine ⟨?_, ?_, ?_⟩
  · intro f now reason hclosed hlt
    simp [on_dial_result, hclosed, hlt, dial_backoff_delay,
      DIAL_BACKOFF_BASE_MS]
  · intro f now reason hclosed heq
    simp [on_dial_result, hclosed, heq, MAX_DIAL_ATTEMPTS]
  · intro t0 t1 t2 r0 r1 r2 h01 h12
    have s0 : failRound (admitFlow t0) t0 r0 =
        ({ ready := false, pending_dial := false, dial_attempts := 1
           next_redial_at := some (t0 + 50), dial_started_at := none
           closed := false, close_reason := none }, true) := by
      simp [failRound, dispatch_pending_dials, on_dial_result, admitFlow,
        MAX_DIAL_ATTEMPTS, dial_backoff_delay, DIAL_BACKOFF_BASE_MS]
    have s1 : failRound
        { ready := false, pending_dial := false, dial_attempts := 1
          next_redial_at := some (t0 + 50), dial_started_at := none
          closed := false, close_reason := none } t1 r1 =
        ({ ready := false, pending_dial := false, dial_attempts := 2
           next_redial_at := some (t1 + 100), dial_started_at := none
           closed := false, close_reason := none }, true) := by
      simp [failRound, dispatch_pending_dials, on_dial_result,
        MAX_DIAL_ATTEMPTS, dial_backoff_delay, DIAL_BACKOFF_BASE_MS, h01]
    have s2 : failRound
        { ready := false, pending_dial := false, dial_attempts := 2
          next_redial_at := some (t1 + 100), dial_started_at := none
          closed := false, close_reason := none } t2 r2 =
        ({ ready := false, pending_dial := false, dial_attempts := 3
           next_redial_at := none, dial_started_at := none
           closed := true, close_reason := some r2 }, true) := by
      simp [failRound, dispatch_pending_dials, on_dial_result,
        MAX_DIAL_ATTEMPTS, dial_backoff_delay, DIAL_BACKOFF_BASE_MS, h12]
    simp only [s0, s1, s2]
    refine ⟨by trivial, by trivial, by trivial, by trivial, by trivial,
      by trivial, ?_⟩
    intro t3
    simp [dispatch_pending_dials]

/-- Witness for C3 at concrete times and reasons. -/
theorem dial_retry_protocol_witness :
    (failRound (failRound (failRound (admitFlow 1000) 1000 "nd").1
        1050 "nd").1 1150 "down").1.closed = true ∧
    (failRound (failRound (failRound (admitFlow 1000) 1000 "nd").1
        1050 "nd").1 1150 "down").1.close_reason = some "down" := by
  have h := dial_retry_protocol.2.2 1000 1050 1150 "nd" "nd" "down"
    (by omega) (by omega)
  exact ⟨h.2.2.2.1, h.2.2.2.2.1⟩

/-! ## Policy store (`policy/mod.rs`, claim C4)

Host names are byte strings (`List Nat`).  A rule's compiled
`WildMatch` matcher is modelled as its matching function.  Hash maps
are association lists.  `std::time::Instant` is a millisecond count,
so the 5-second grace is 5000. -/

/-- Model of `std::net::IpAddr` (an IPv4 address is four octets, an
IPv6 address is eight 16-bit segments, as constructed by
`Ipv4Addr::new` / `Ipv6Addr::new`). -/
inductive IpAddr where
  | v4 (a b c d : Nat)
  | v6 (s0 s1 s2 s3 s4 s5 s6 s7 : Nat)
  deriving Repr, DecidableEq

/-- `STALE_GRACE_SECONDS` from `policy/mod.rs`, in model milliseconds. -/
def STALE_GRACE_MS : Nat := 5000

/-- `ShapingConfig` from `policy/mod.rs`. -/
structure ShapingConfig where
  latency_ms : Nat
  jitter_ms : Nat
  deriving Repr, DecidableEq

/-- `RuleAction` from `policy/mod.rs`. -/
inductive RuleAction where
  | Block
  | Shape (config : ShapingConfig)
  deriving Repr, DecidableEq

/-- `PolicyDecision` from `policy/mod.rs`. -/
structure PolicyDecision where
  host : List Nat
  action : RuleAction
  deriving Repr, DecidableEq

/-- `HostRule` from `policy/mod.rs`; the compiled wildcard matcher is
kept as its matching function. -/
structure HostRule where
  id : Nat
  pattern : List Nat
  matcher : List Nat → Bool
  action : RuleAction
  ip_target : Option IpAddr

/-- `ObservedHost` from `policy/mod.rs`. -/
structure ObservedHost where
  host : List Nat
  expires_at : Nat
  deriving Repr, DecidableEq

/-- The three maps of `PolicyManager`. -/
structure PolicyManager where
  rules : List HostRule
  dns_map : List (IpAddr × List ObservedHost)
  ip_rules : List (IpAddr × RuleAction)

/-- Association-list lookup standing in for `HashMap::get`. -/
def lookupAssoc {α β : Type} [DecidableEq α] (m : List (α × β)) (k : α) :
    Option β :=
  match m with
  | [] => none
  | (k1, v) :: rest => if k1 = k then some v else lookupAssoc rest k

/-- `u8::to_ascii_lowercase` on a byte. -/
def asciiLowerByte (b : Nat) : Nat :=
  if 65 ≤ b ∧ b ≤ 90 then b + 32 else b

/-- Decimal rendering of a `Nat` (helper for `IpAddr::to_string`). -/
def natDecimal (n : Nat) : List Nat :=
  (Nat.toDigits 10 n).map Char.toNat

/-- `IpAddr::to_string` as a byte string.  IPv4 matches the std
rendering; IPv6 is rendered as plain colon-separated decimal segments
(the std zero-compressed hex form differs, but no checked claim
observes the rendering). -/
def ipToString : IpAddr → List Nat
  | .v4 a b c d =>
    natDecimal a ++ [46] ++ natDecimal b ++ [46] ++ natDecimal c ++ [46] ++
      natDecimal d
  | .v6 s0 s1 s2 s3 s4 s5 s6 s7 =>
    natDecimal s0 ++ [58] ++ natDecimal s1 ++ [58] ++ natDecimal s2 ++ [58] ++
      natDecimal s3 ++ [58] ++ natDecimal s4 ++ [58] ++ natDecimal s5 ++
      [58] ++ natDecimal s6 ++ [58] ++ natDecimal s7

/-- `retain_with_grace` from `policy/mod.rs`: keep records with
`expires_at + grace > now`. -/
def retain_with_grace (entries : List ObservedHost) (now : Nat) :
    List ObservedHost :=
  entries.filter (fun record => now < record.expires_at + STALE_GRACE_MS)

/-- The reverse rule scan inside `PolicyManager::match_host`. -/
def findRuleMatch : List HostRule → List Nat → Option RuleAction
  | [], _ => none
  | rule :: rest, host =>
    if rule.matcher host then some rule.action else findRuleMatch rest host

/-- `PolicyManager::match_host`. -/
def match_host (rules : List HostRule) (host : List Nat) : Option RuleAction :=
  if rules.isEmpty then none
  else findRuleMatch rules.reverse (host.map asciiLowerByte)

/-- The record walk inside `PolicyManager::decision_for_ip`: records
are visited newest-first; a fresh match returns at once, the first
stale match is remembered as the fall-back. -/
def decideRecords (rules : List HostRule) (now : Nat) :
    List ObservedHost → Option PolicyDecision → Option PolicyDecision
  | [], stale => stale
  | record :: rest, stale =>
    match match_host rules record.host with
    | none => decideRecords rules now rest stale
    | some action =>
      if now < record.expires_at then some ⟨record.host, action⟩
      else
        decideRecords rules now rest
          (if stale.isNone then some ⟨record.host, action⟩ else stale)

/-- `PolicyManager::decision_for_ip` (return value only; the map
mutations drop the records that the grace filter drops anyway). -/
def decision_for_ip (pm : PolicyManager) (addr : IpAddr) (now : Nat) :
    Option PolicyDecision :=
  match lookupAssoc pm.ip_rules addr with
  | some action => some ⟨ipToString addr, action⟩
  | none =>
    match lookupAssoc pm.dns_map addr with
    | none => none
    | some entry =>
      let entry := retain_with_grace entry now
      if entry.isEmpty then none
      else decideRecords pm.rules now entry.reverse none

/-- C4 counterexample: with a single observed host whose TTL expired
at 1000 ms and a rule matching every host, the claim promises a
decision at `now = expires_at + 5 s = 6000` (since `now ≤ expires_at +
5 s`), but `decision_for_ip` returns `none`: `retain_with_grace` keeps
a record only while `now < expires_at + 5 s`. -/
theorem policy_ttl_grace_counterexample :
    (6000 ≤ 1000 + STALE_GRACE_MS) ∧
    decision_for_ip
      { rules := [⟨1, [42], fun _ => true, .Block, none⟩]
        dns_map := [(.v4 1 2 3 4, [⟨[97], 1000⟩])]
        ip_rules := [] }
      (.v4 1 2 3 4) 6000 = none := by
  constructor
  · decide
  · rfl

/-- C4 (amended): for an IP whose DNS cache holds a single observed
host, a rule matching that host, and no IP-literal shortcut rule,
`decision_for_ip` returns that host's decision exactly while
`now < expires_at + 5 s`, and `none` for every `now ≥ expires_at +
5 s` (the claim's window `now ≤ expires_at + 5 s` is off by the
boundary instant: the grace comparison in `retain_with_grace` is
strict). -/
theorem policy_ttl_grace (pm : PolicyManager) (addr : IpAddr)
    (host : List Nat) (expires now : Nat) (action : RuleAction)
    (hshortcut : lookupAssoc pm.ip_rules addr = none)
    (hcache : lookupAssoc pm.dns_map addr = some [⟨host, expires⟩])
    (hmatch : match_host pm.rules host = some action) :
    (now < expires + STALE_GRACE_MS →
      decision_for_ip pm addr now = some ⟨host, action⟩) ∧
    (expires + STALE_GRACE_MS ≤ now →
      decision_for_ip pm addr now = none) := by
  constructor
  · intro hin
    unfold decision_for_ip
    rw [hshortcut, hcache]
    have hkeep : retain_with_grace [⟨host, expires⟩] now = [⟨host, expires⟩] := by
      simp [retain_with_grace, hin]
    show (if (retain_with_grace [⟨host, expires⟩] now).isEmpty = true then none
        else decideRecords pm.rules now
          (retain_with_grace [⟨host, expires⟩] now).reverse none) =
      some ⟨host, action⟩
    rw [hkeep]
    simp only [List.isEmpty_cons, Bool.false_eq_true, if_false,
      List.reverse_cons, List.reverse_nil, List.nil_append]
    unfold decideRecords
    rw [hmatch]
    by_cases hfresh : now < expires
    · simp [hfresh]
    · simp [hfresh, decideRecords]
  · intro hout
    unfold decision_for_ip
    rw [hshortcut, hcache]
    have hdrop : retain_with_grace [⟨host, expires⟩] now = [] := by
      simp [retain_with_grace]
      omega
    show (if (retain_with_grace [⟨host, expires⟩] now).isEmpty = true then none
        else decideRecords pm.rules now
          (retain_with_grace [⟨host, expires⟩] now).reverse none) = none
    rw [hdrop]
    rfl

/-- Witness for the amended C4 at a concrete cache and both sides of
the window. -/
theorem policy_ttl_grace_witness :
    decision_for_ip
        { rules := [⟨1, [42], fun _ => true, .Block, none⟩]
          dns_map := [(.v4 1 2 3 4, [⟨[97], 1000⟩])]
          ip_rules := [] }
        (.v4 1 2 3 4) 5999 = some ⟨[97], .Block⟩ ∧
    decision_for_ip
        { rules := [⟨1, [42], fun _ => true, .Block, none⟩]
          dns_map := [(.v4 1 2 3 4, [⟨[97], 1000⟩])]
          ip_rules := [] }
        (.v4 1 2 3 4) 6000 = none := by
  have h := policy_ttl_grace
    { rules := [⟨1, [42], fun _ => true, .Block, none⟩]
      dns_map := [(.v4 1 2 3 4, [⟨[97], 1000⟩])]
      ip_rules := [] }
    (.v4 1 2 3 4) [97] 1000 5999 .Block rfl rfl rfl
  have h2 := policy_ttl_grace
    { rules := [⟨1, [42], fun _ => true, .Block, none⟩]
      dns_map := [(.v4 1 2 3 4, [⟨[97], 1000⟩])]
      ip_rules := [] }
    (.v4 1 2 3 4) [97] 1000 6000 .Block rfl rfl rfl
  exact ⟨h.1 (by decide), h2.2 (by decide)⟩

/-! ## Validated packet parsing (`device/mod.rs`, claims C1 and C2)

The result type is `Option (Except ParseError ParsedPacket)`: `none`
models a Rust panic (an out-of-range slice), `some (.error e)` is
`Err(e)`, `some (.ok p)` is `Ok(p)`. -/

/-- `ParseError` from `device/mod.rs`. -/
inductive ParseError where
  | EmptyPacket
  | UnsupportedIpVersion (version : Nat)
  | MalformedIpv4Header
  | MalformedIpv6Header
  | MalformedTcpSegment
  | MalformedUdpDatagram
  deriving Repr, DecidableEq

/-- `TcpFlags` from `device/mod.rs`. -/
structure TcpFlags where
  syn : Bool
  ack : Bool
  fin : Bool
  rst : Bool
  deriving Repr, DecidableEq

/-- `TcpPacket` from `device/mod.rs` (the payload is owned here rather
than borrowed). -/
structure TcpPacket where
  src : IpAddr
  dst : IpAddr
  src_port : Nat
  dst_port : Nat
  seq_number : Nat
  ack_number : Nat
  flags : TcpFlags
  payload : List Nat
  deriving Repr, DecidableEq

/-- `UdpPacket` from `device/mod.rs`. -/
structure UdpPacket where
  src : IpAddr
  dst : IpAddr
  src_port : Nat
  dst_port : Nat
  payload : List Nat
  deriving Repr, DecidableEq

/-- `ParsedPacket` from `device/mod.rs`. -/
inductive ParsedPacket where
  | Tcp (packet : TcpPacket)
  | Udp (packet : UdpPacket)
  | Other
  deriving Repr, DecidableEq

/-- `parse_tcp_validated` from `device/mod.rs`.  The final
`&payload[data_offset..]` is in range because `data_offset ≤ len` was
checked, so it is a plain `drop`. -/
def parse_tcp_validated (src dst : IpAddr) (payload : List Nat) :
    Option (Except ParseError ParsedPacket) :=
  if payload.length < 20 then some (.error .MalformedTcpSegment)
  else
    let src_port := beU16 (byteAt payload 0) (byteAt payload 1)
    let dst_port := beU16 (byteAt payload 2) (byteAt payload 3)
    let seq_number := beU32 (byteAt payload 4) (byteAt payload 5)
      (byteAt payload 6) (byteAt payload 7)
    let ack_number := beU32 (byteAt payload 8) (byteAt payload 9)
      (byteAt payload 10) (byteAt payload 11)
    let data_offset := byteAt payload 12 / 16 * 4
    if data_offset < 20 ∨ payload.length < data_offset then
      some (.error .MalformedTcpSegment)
    else
      let flags_byte := byteAt payload 13
      let flags : TcpFlags :=
        { syn := flags_byte &&& 2 != 0
          ack := flags_byte &&& 16 != 0
          fin := flags_byte &&& 1 != 0
          rst := flags_byte &&& 4 != 0 }
      some (.ok (.Tcp
        { src := src, dst := dst, src_port := src_port, dst_port := dst_port
          seq_number := seq_number, ack_number := ack_number, flags := flags
          payload := payload.drop data_offset }))

/-- `parse_udp_validated` from `device/mod.rs`.  `&payload[8..length]`
is in range because `8 ≤ length ≤ len` was checked. -/
def parse_udp_validated (src dst : IpAddr) (payload : List Nat) :
    Option (Except ParseError ParsedPacket) :=
  if payload.length < 8 then some (.error .MalformedUdpDatagram)
  else
    let src_port := beU16 (byteAt payload 0) (byteAt payload 1)
    let dst_port := beU16 (byteAt payload 2) (byteAt payload 3)
    let length := beU16 (byteAt payload 4) (byteAt payload 5)
    if length < 8 ∨ payload.length < length then
      some (.error .MalformedUdpDatagram)
    else
      some (.ok (.Udp
        { src := src, dst := dst, src_port := src_port, dst_port := dst_port
          payload := (payload.drop 8).take (length - 8) }))

/-- `parse_ipv4_validated` from `device/mod.rs`.  The payload slice
`&packet[header_len..total_len]` is NOT guarded against
`total_len < header_len`; the checked slice records the panic. -/
def parse_ipv4_validated (packet : List Nat) :
    Option (Except ParseError ParsedPacket) :=
  if packet.length < 20 then some (.error .MalformedIpv4Header)
  else
    let header_len := byteAt packet 0 % 16 * 4
    if header_len < 20 ∨ packet.length < header_len then
      some (.error .MalformedIpv4Header)
    else
      let total_len := beU16 (byteAt packet 2) (byteAt packet 3)
      if packet.length < total_len then some (.error .MalformedIpv4Header)
      else
        let protocol := byteAt packet 9
        let src : IpAddr := .v4 (byteAt packet 12) (byteAt packet 13)
          (byteAt packet 14) (byteAt packet 15)
        let dst : IpAddr := .v4 (byteAt packet 16) (byteAt packet 17)
          (byteAt packet 18) (byteAt packet 19)
        (sliceChecked packet header_len total_len).bind fun payload =>
          if protocol = 6 then parse_tcp_validated src dst payload
          else if protocol = 17 then parse_udp_validated src dst payload
          else some (.ok .Other)

/-- `parse_ipv6_validated` from `device/mod.rs`.  The payload slice
`&packet[40..40 + payload_len]` is in range by the preceding check. -/
def parse_ipv6_validated (packet : List Nat) :
    Option (Except ParseError ParsedPacket) :=
  if packet.length < 40 then some (.error .MalformedIpv6Header)
  else
    let next_header := byteAt packet 6
    let payload_len := beU16 (byteAt packet 4) (byteAt packet 5)
    if packet.length < 40 + payload_len then
      some (.error .MalformedIpv6Header)
    else
      let src : IpAddr := .v6
        (beU16 (byteAt packet 8) (byteAt packet 9))
        (beU16 (byteAt packet 10) (byteAt packet 11))
        (beU16 (byteAt packet 12) (byteAt packet 13))
        (beU16 (byteAt packet 14) (byteAt packet 15))
        (beU16 (byteAt packet 16) (byteAt packet 17))
        (beU16 (byteAt packet 18) (byteAt packet 19))
        (beU16 (byteAt packet 20) (byteAt packet 21))
        (beU16 (byteAt packet 22) (byteAt packet 23))
      let dst : IpAddr := .v6
        (beU16 (byteAt packet 24) (byteAt packet 25))
        (beU16 (byteAt packet 26) (byteAt packet 27))
        (beU16 (byteAt packet 28) (byteAt packet 29))
        (beU16 (byteAt packet 30) (byteAt packet 31))
        (beU16 (byteAt packet 32) (byteAt packet 33))
        (beU16 (byteAt packet 34) (byteAt packet 35))
        (beU16 (byteAt packet 36) (byteAt packet 37))
        (beU16 (byteAt packet 38) (byteAt packet 39))
      (sliceChecked packet 40 (40 + payload_len)).bind fun payload =>
        if next_header = 6 then parse_tcp_validated src dst payload
        else if next_header = 17 then parse_udp_validated src dst payload
        else some (.ok .Other)

/-- `parse_packet_validated` from `device/mod.rs`. -/
def parse_packet_validated (packet : List Nat) :
    Option (Except ParseError ParsedPacket) :=
  if packet.isEmpty then some (.error .EmptyPacket)
  else
    let version := byteAt packet 0 / 16
    if version = 4 then parse_ipv4_validated packet
    else if version = 6 then parse_ipv6_validated packet
    else some (.error (.UnsupportedIpVersion version))

/-- A 20-byte IPv4 packet whose declared total length (10) is smaller
than its header length (20): version 4, IHL 5, total-length field 10,
protocol 6. -/
def shortTotalLenPacket : List Nat :=
  [69, 0, 0, 10, 0, 0, 0, 0, 0, 6, 0, 0, 0, 0, 0, 0, 0, 0, 0, 0]

/-- C1 (code bug): `parse_packet_validated` is not total.  On an IPv4
packet whose declared total length is smaller than its header length
it evaluates `&packet[header_len..total_len]` with
`header_len > total_len`, an out-of-range slice (a panic, `none` in
the model) instead of any enumerated variant or `ParseError` — while
the sibling ingress validator `validate_packet` rejects exactly this
shape, confirming the intended totality. -/
theorem parse_packet_total_len_panic :
    parse_packet_validated shortTotalLenPacket = none ∧
    validate_packet shortTotalLenPacket = false ∧
    shortTotalLenPacket.length = 20 ∧
    beU16 (byteAt shortTotalLenPacket 2) (byteAt shortTotalLenPacket 3) = 10 := by
  refine ⟨rfl, rfl, rfl, rfl⟩

/-! ## Checksums (`flow_manager/checksum.rs`) -/

/-- The 16-bit carry fold: `while (sum >> 16) != 0 { sum = (sum &
0xFFFF) + (sum >> 16) }`. -/
def foldCarry (sum : Nat) : Nat :=
  if sum < 65536 then sum
  else foldCarry (sum % 65536 + sum / 65536)
  termination_by sum
  decreasing_by omega

/-- `chunks_exact(2)` plus the odd-byte remainder of `ones_complement`:
each pair contributes `u16::from_be_bytes([a, b])`, a trailing byte
contributes `u16::from_be_bytes([byte, 0])`. -/
def words : List Nat → List Nat
  | [] => []
  | [b] => [b * 256]
  | a :: b :: rest => beU16 a b :: words rest

/-- `u32` accumulation with `wrapping_add`. -/
def addWrap (s w : Nat) : Nat := (s + w) % 4294967296

/-- Sum a word list into a wrapping `u32` accumulator. -/
def sumWords (init : Nat) (ws : List Nat) : Nat := ws.foldl addWrap init

/-- `checksum::ones_complement`: accumulate, fold the carries, take the
bitwise complement of the low 16 bits. -/
def ones_complement (sum : Nat) (bytes : List Nat) : Nat :=
  65535 - foldCarry (sumWords sum (words bytes))

/-- `checksum::ipv4_header`. -/
def ipv4_header (header : List Nat) : Nat := ones_complement 0 header

/-- The 16 octets of an IPv6 address given as eight segments
(`Ipv6Addr::octets`). -/
def v6Octets (s0 s1 s2 s3 s4 s5 s6 s7 : Nat) : List Nat :=
  be16 s0 ++ be16 s1 ++ be16 s2 ++ be16 s3 ++ be16 s4 ++ be16 s5 ++
    be16 s6 ++ be16 s7

/-- `checksum::tcp_ipv4` (IPv4 pseudo-header + segment). -/
def tcp_ipv4 (src dst segment : List Nat) : Nat :=
  ones_complement 0 (src ++ dst ++ [0, 6] ++ be16 segment.length ++ segment)

/-- `checksum::udp_ipv4` (IPv4 pseudo-header + segment). -/
def udp_ipv4 (src dst segment : List Nat) : Nat :=
  ones_complement 0 (src ++ dst ++ [0, 17] ++ be16 segment.length ++ segment)

/-- `checksum::tcp_ipv6` (IPv6 pseudo-header + segment). -/
def tcp_ipv6 (src dst segment : List Nat) : Nat :=
  ones_complement 0
    (src ++ dst ++ be32 segment.length ++ [0, 0, 0, 6] ++ segment)

/-- `checksum::udp_ipv6` (IPv6 pseudo-header + segment). -/
def udp_ipv6 (src dst segment : List Nat) : Nat :=
  ones_complement 0
    (src ++ dst ++ be32 segment.length ++ [0, 0, 0, 17] ++ segment)

/-- `checksum::icmpv6` (IPv6 pseudo-header + message). -/
def icmpv6 (src dst message : List Nat) : Nat :=
  ones_complement 0
    (src ++ dst ++ be32 message.length ++ [0, 0, 0, 58] ++ message)

/-! ## TCP reset builder (`flow_manager/packet_builder.rs`, claim C2) -/

/-- `tcp_ack_number` from `flow_manager/packet_builder.rs`:
`(payload.len() as u32).wrapping_add(seq).wrapping_add(syn).wrapping_add(fin)`. -/
def tcp_ack_number (p : TcpPacket) : Nat :=
  ((((p.payload.length % 4294967296) + p.seq_number) % 4294967296 +
    (if p.flags.syn then 1 else 0)) % 4294967296 +
    (if p.flags.fin then 1 else 0)) % 4294967296

/-- `build_ipv4_tcp_reset`: `client`/`server` are the four octets of
the packet's source/destination address.  The byte layout follows the
source writes; the TCP checksum is computed over the header with a
zeroed checksum field, then inserted; the IP checksum likewise. -/
def build_ipv4_tcp_reset (client server : List Nat) (p : TcpPacket) :
    List Nat :=
  let seq_number := if p.flags.ack then p.ack_number else 0
  let ack_number := tcp_ack_number p
  let tcp0 := be16 p.dst_port ++ be16 p.src_port ++ be32 seq_number ++
    be32 ack_number ++ [80, 20] ++ [0, 0] ++ [0, 0] ++ [0, 0]
  let tcp_checksum := tcp_ipv4 server client tcp0
  let tcp := be16 p.dst_port ++ be16 p.src_port ++ be32 seq_number ++
    be32 ack_number ++ [80, 20] ++ [0, 0] ++ be16 tcp_checksum ++ [0, 0]
  let ip0 := [69, 0] ++ be16 40 ++ be16 0 ++ be16 0 ++ [64, 6] ++ [0, 0] ++
    server ++ client
  let ip_cksum := ipv4_header ip0
  let ip := [69, 0] ++ be16 40 ++ be16 0 ++ be16 0 ++ [64, 6] ++
    be16 ip_cksum ++ server ++ client
  ip ++ tcp

/-- `build_ipv6_tcp_reset`: `client`/`server` are the sixteen octets of
the packet's source/destination address. -/
def build_ipv6_tcp_reset (client server : List Nat) (p : TcpPacket) :
    List Nat :=
  let seq_number := if p.flags.ack then p.ack_number else 0
  let ack_number := tcp_ack_number p
  let tcp0 := be16 p.dst_port ++ be16 p.src_port ++ be32 seq_number ++
    be32 ack_number ++ [80, 20] ++ [0, 0] ++ [0, 0] ++ [0, 0]
  let tcp_checksum := tcp_ipv6 server client tcp0
  let tcp := be16 p.dst_port ++ be16 p.src_port ++ be32 seq_number ++
    be32 ack_number ++ [80, 20] ++ [0, 0] ++ be16 tcp_checksum ++ [0, 0]
  let ip := [96, 0, 0, 0] ++ be16 20 ++ [6, 64] ++ server ++ client
  ip ++ tcp

/-- `build_tcp_reset`: dispatch on the address family of the parsed
packet; mixed families yield `None`. -/
def build_tcp_reset (p : TcpPacket) : Option (List Nat) :=
  match p.src, p.dst with
  | .v4 a b c d, .v4 e f g h =>
    some (build_ipv4_tcp_reset [a, b, c, d] [e, f, g, h] p)
  | .v6 s0 s1 s2 s3 s4 s5 s6 s7, .v6 d0 d1 d2 d3 d4 d5 d6 d7 =>
    some (build_ipv6_tcp_reset (v6Octets s0 s1 s2 s3 s4 s5 s6 s7)
      (v6Octets d0 d1 d2 d3 d4 d5 d6 d7) p)
  | _, _ => none

theorem beU16_encode (n : Nat) (h : n < 65536) :
    beU16 (n / 256 % 256) (n % 256) = n := by
  unfold beU16; omega

theorem beU32_encode (n : Nat) (h : n < 4294967296) :
    beU32 (n / 16777216 % 256) (n / 65536 % 256) (n / 256 % 256)
      (n % 256) = n := by
  unfold beU32; omega

theorem beU16_encode_raw (n : Nat) (h : n < 65536) :
    n / 256 % 256 * 256 + n % 256 = n := by
  omega

theorem tcp_ack_number_lt (p : TcpPacket) :
    tcp_ack_number p < 4294967296 := by
  unfold tcp_ack_number
  omega

/-- The TCP header emitted by both reset builders, with symbolic
ports, sequence/ack numbers and checksum. -/
def resetTcpHeader (dp sp S A ck : Nat) : List Nat :=
  be16 dp ++ be16 sp ++ be32 S ++ be32 A ++ [80, 20, 0, 0] ++ be16 ck ++ [0, 0]

theorem parse_reset_tcp_header (src dst : IpAddr) (dp sp S A ck : Nat)
    (hsp : sp < 65536) (hdp : dp < 65536)
    (hS : S < 4294967296) (hA : A < 4294967296) :
    parse_tcp_validated src dst (resetTcpHeader dp sp S A ck) =
      some (.ok (.Tcp ⟨src, dst, dp, sp, S, A,
        ⟨false, true, false, true⟩, []⟩)) := by
  have hlen : (resetTcpHeader dp sp S A ck).length = 20 := rfl
  have h0 : byteAt (resetTcpHeader dp sp S A ck) 0 = dp / 256 % 256 := rfl
  have h1 : byteAt (resetTcpHeader dp sp S A ck) 1 = dp % 256 := rfl
  have h2 : byteAt (resetTcpHeader dp sp S A ck) 2 = sp / 256 % 256 := rfl
  have h3 : byteAt (resetTcpHeader dp sp S A ck) 3 = sp % 256 := rfl
  have h4 : byteAt (resetTcpHeader dp sp S A ck) 4 = S / 16777216 % 256 := rfl
  have h5 : byteAt (resetTcpHeader dp sp S A ck) 5 = S / 65536 % 256 := rfl
  have h6 : byteAt (resetTcpHeader dp sp S A ck) 6 = S / 256 % 256 := rfl
  have h7 : byteAt (resetTcpHeader dp sp S A ck) 7 = S % 256 := rfl
  have h8 : byteAt (resetTcpHeader dp sp S A ck) 8 = A / 16777216 % 256 := rfl
  have h9 : byteAt (resetTcpHeader dp sp S A ck) 9 = A / 65536 % 256 := rfl
  have h10 : byteAt (resetTcpHeader dp sp S A ck) 10 = A / 256 % 256 := rfl
  have h11 : byteAt (resetTcpHeader dp sp S A ck) 11 = A % 256 := rfl
  have h12 : byteAt (resetTcpHeader dp sp S A ck) 12 = 80 := rfl
  have h13 : byteAt (resetTcpHeader dp sp S A ck) 13 = 20 := rfl
  have hdrop : (resetTcpHeader dp sp S A ck).drop 20 = [] := rfl
  simp only [parse_tcp_validated, hlen, h0, h1, h2, h3, h4, h5, h6, h7, h8,
    h9, h10, h11, h12, h13, hdrop]
  norm_num
  rw [beU16_encode dp hdp, beU16_encode sp hsp, beU32_encode S hS,
    beU32_encode A hA]
  exact ⟨rfl, rfl, rfl, rfl, by decide, by decide, by decide⟩

theorem parse_build_ipv4_tcp_reset (p : TcpPacket) (a b c d e f g h : Nat)
    (hsp : p.src_port < 65536) (hdp : p.dst_port < 65536)
    (hack : p.ack_number < 4294967296) :
    parse_packet_validated (build_ipv4_tcp_reset [a, b, c, d] [e, f, g, h] p) =
      some (.ok (.Tcp
        { src := .v4 e f g h, dst := .v4 a b c d
          src_port := p.dst_port, dst_port := p.src_port
          seq_number := if p.flags.ack then p.ack_number else 0
          ack_number := tcp_ack_number p
          flags := { syn := false, ack := true, fin := false, rst := true }
          payload := [] })) := by
  have hseq : (if p.flags.ack then p.ack_number else 0) < 4294967296 := by
    split <;> omega
  -- the built frame is the 20-byte IP header followed by the reset
  -- TCP header (checksum values generalized).
  obtain ⟨ipck, ck, hframe⟩ : ∃ ipck ck,
      build_ipv4_tcp_reset [a, b, c, d] [e, f, g, h] p =
        [69, 0, 0, 40, 0, 0, 0, 0, 64, 6] ++ be16 ipck ++
          [e, f, g, h] ++ [a, b, c, d] ++
          resetTcpHeader p.dst_port p.src_port
            (if p.flags.ack then p.ack_number else 0) (tcp_ack_number p) ck :=
    ⟨_, _, rfl⟩
  rw [hframe]
  generalize hck : (if p.flags.ack = true then p.ack_number else 0) = S at hseq ⊢
  -- reduce the IP layer
  have hempty : ([69, 0, 0, 40, 0, 0, 0, 0, 64, 6] ++ be16 ipck ++
      [e, f, g, h] ++ [a, b, c, d] ++
      resetTcpHeader p.dst_port p.src_port S (tcp_ack_number p) ck).isEmpty
      = false := rfl
  have hb0 : byteAt ([69, 0, 0, 40, 0, 0, 0, 0, 64, 6] ++ be16 ipck ++
      [e, f, g, h] ++ [a, b, c, d] ++
      resetTcpHeader p.dst_port p.src_port S (tcp_ack_number p) ck) 0
      = 69 := rfl
  have hb2 : byteAt ([69, 0, 0, 40, 0, 0, 0, 0, 64, 6] ++ be16 ipck ++
      [e, f, g, h] ++ [a, b, c, d] ++
      resetTcpHeader p.dst_port p.src_port S (tcp_ack_number p) ck) 2
      = 0 := rfl
  have hb3 : byteAt ([69, 0, 0, 40, 0, 0, 0, 0, 64, 6] ++ be16 ipck ++
      [e, f, g, h] ++ [a, b, c, d] ++
      resetTcpHeader p.dst_port p.src_port S (tcp_ack_number p) ck) 3
      = 40 := rfl
  have hb9 : byteAt ([69, 0, 0, 40, 0, 0, 0, 0, 64, 6] ++ be16 ipck ++
      [e, f, g, h] ++ [a, b, c, d] ++
      resetTcpHeader p.dst_port p.src_port S (tcp_ack_number p) ck) 9
      = 6 := rfl
  have hb12 : byteAt ([69, 0, 0, 40, 0, 0, 0, 0, 64, 6] ++ be16 ipck ++
      [e, f, g, h] ++ [a, b, c, d] ++
      resetTcpHeader p.dst_port p.src_port S (tcp_ack_number p) ck) 12
      = e := rfl
  have hb13 : byteAt ([69, 0, 0, 40, 0, 0, 0, 0, 64, 6] ++ be16 ipck ++
      [e, f, g, h] ++ [a, b, c, d] ++
      resetTcpHeader p.dst_port p.src_port S (tcp_ack_number p) ck) 13
      = f := rfl
  have hb14 : byteAt ([69, 0, 0, 40, 0, 0, 0, 0, 64, 6] ++ be16 ipck ++
      [e, f, g, h] ++ [a, b, c, d] ++
      resetTcpHeader p.dst_port p.src_port S (tcp_ack_number p) ck) 14
      = g := rfl
  have hb15 : byteAt ([69, 0, 0, 40, 0, 0, 0, 0, 64, 6] ++ be16 ipck ++
      [e, f, g, h] ++ [a, b, c, d] ++
      resetTcpHeader p.dst_port p.src_port S (tcp_ack_number p) ck) 15
      = h := rfl
  have hb16 : byteAt ([69, 0, 0, 40, 0, 0, 0, 0, 64, 6] ++ be16 ipck ++
      [e, f, g, h] ++ [a, b, c, d] ++
      resetTcpHeader p.dst_port p.src_port S (tcp_ack_number p) ck) 16
      = a := rfl
  have hb17 : byteAt ([69, 0, 0, 40, 0, 0, 0, 0, 64, 6] ++ be16 ipck ++
      [e, f, g, h] ++ [a, b, c, d] ++
      resetTcpHeader p.dst_port p.src_port S (tcp_ack_number p) ck) 17
      = b := rfl
  have hb18 : byteAt ([69, 0, 0, 40, 0, 0, 0, 0, 64, 6] ++ be16 ipck ++
      [e, f, g, h] ++ [a, b, c, d] ++
      resetTcpHeader p.dst_port p.src_port S (tcp_ack_number p) ck) 18
      = c := rfl
  have hb19 : byteAt ([69, 0, 0, 40, 0, 0, 0, 0, 64, 6] ++ be16 ipck ++
      [e, f, g, h] ++ [a, b, c, d] ++
      resetTcpHeader p.dst_port p.src_port S (tcp_ack_number p) ck) 19
      = d := rfl
  have hblen : ([69, 0, 0, 40, 0, 0, 0, 0, 64, 6] ++ be16 ipck ++
      [e, f, g, h] ++ [a, b, c, d] ++
      resetTcpHeader p.dst_port p.src_port S (tcp_ack_number p) ck).length
      = 40 := rfl
  have hbslice : sliceChecked ([69, 0, 0, 40, 0, 0, 0, 0, 64, 6] ++
      be16 ipck ++ [e, f, g, h] ++ [a, b, c, d] ++
      resetTcpHeader p.dst_port p.src_port S (tcp_ack_number p) ck) 20 40
      = some (resetTcpHeader p.dst_port p.src_port S (tcp_ack_number p) ck) :=
    rfl
  simp only [parse_packet_validated, parse_ipv4_validated, hempty,
    Bool.false_eq_true, if_false, hb0, hb2, hb3, hb9, hb12, hb13, hb14, hb15,
    hb16, hb17, hb18, hb19, hblen, hbslice, beU16]
  norm_num [Option.bind]
  exact parse_reset_tcp_header (.v4 e f g h) (.v4 a b c d) p.dst_port
    p.src_port S (tcp_ack_number p) ck hsp hdp hseq (tcp_ack_number_lt p)

set_option maxHeartbeats 2000000 in
theorem parse_build_ipv6_tcp_reset (p : TcpPacket)
    (s0 s1 s2 s3 s4 s5 s6 s7 d0 d1 d2 d3 d4 d5 d6 d7 : Nat)
    (hsp : p.src_port < 65536) (hdp : p.dst_port < 65536)
    (hack : p.ack_number < 4294967296)
    (hs : s0 < 65536 ∧ s1 < 65536 ∧ s2 < 65536 ∧ s3 < 65536 ∧ s4 < 65536 ∧
      s5 < 65536 ∧ s6 < 65536 ∧ s7 < 65536)
    (hd : d0 < 65536 ∧ d1 < 65536 ∧ d2 < 65536 ∧ d3 < 65536 ∧ d4 < 65536 ∧
      d5 < 65536 ∧ d6 < 65536 ∧ d7 < 65536) :
    parse_packet_validated
      (build_ipv6_tcp_reset (v6Octets s0 s1 s2 s3 s4 s5 s6 s7)
        (v6Octets d0 d1 d2 d3 d4 d5 d6 d7) p) =
      some (.ok (.Tcp
        { src := .v6 d0 d1 d2 d3 d4 d5 d6 d7
          dst := .v6 s0 s1 s2 s3 s4 s5 s6 s7
          src_port := p.dst_port, dst_port := p.src_port
          seq_number := if p.flags.ack then p.ack_number else 0
          ack_number := tcp_ack_number p
          flags := { syn := false, ack := true, fin := false, rst := true }
          payload := [] })) := by
  have hseq : (if p.flags.ack then p.ack_number else 0) < 4294967296 := by
    split <;> omega
  obtain ⟨ck, hframe⟩ : ∃ ck,
      build_ipv6_tcp_reset (v6Octets s0 s1 s2 s3 s4 s5 s6 s7)
        (v6Octets d0 d1 d2 d3 d4 d5 d6 d7) p =
        [96, 0, 0, 0, 0, 20, 6, 64] ++ v6Octets d0 d1 d2 d3 d4 d5 d6 d7 ++
          v6Octets s0 s1 s2 s3 s4 s5 s6 s7 ++
          resetTcpHeader p.dst_port p.src_port
            (if p.flags.ack then p.ack_number else 0) (tcp_ack_number p) ck :=
    ⟨_, rfl⟩
  rw [hframe]
  generalize (if p.flags.ack = true then p.ack_number else 0) = S at hseq ⊢
  set F := [96, 0, 0, 0, 0, 20, 6, 64] ++ v6Octets d0 d1 d2 d3 d4 d5 d6 d7 ++
    v6Octets s0 s1 s2 s3 s4 s5 s6 s7 ++
    resetTcpHeader p.dst_port p.src_port S (tcp_ack_number p) ck with hFdef
  have hempty : F.isEmpty = false := by rw [hFdef]; exact rfl
  have e0 : byteAt F 0 = 96 := by rw [hFdef]; exact rfl
  have e4 : byteAt F 4 = 0 := by rw [hFdef]; exact rfl
  have e5 : byteAt F 5 = 20 := by rw [hFdef]; exact rfl
  have e6 : byteAt F 6 = 6 := by rw [hFdef]; exact rfl
  have elen : F.length = 60 := by rw [hFdef]; exact rfl
  have e8 : byteAt F 8 = d0 / 256 % 256 := by rw [hFdef]; exact rfl
  have e9 : byteAt F 9 = d0 % 256 := by rw [hFdef]; exact rfl
  have e10 : byteAt F 10 = d1 / 256 % 256 := by rw [hFdef]; exact rfl
  have e11 : byteAt F 11 = d1 % 256 := by rw [hFdef]; exact rfl
  have e12 : byteAt F 12 = d2 / 256 % 256 := by rw [hFdef]; exact rfl
  have e13 : byteAt F 13 = d2 % 256 := by rw [hFdef]; exact rfl
  have e14 : byteAt F 14 = d3 / 256 % 256 := by rw [hFdef]; exact rfl
  have e15 : byteAt F 15 = d3 % 256 := by rw [hFdef]; exact rfl
  have e16 : byteAt F 16 = d4 / 256 % 256 := by rw [hFdef]; exact rfl
  have e17 : byteAt F 17 = d4 % 256 := by rw [hFdef]; exact rfl
  have e18 : byteAt F 18 = d5 / 256 % 256 := by rw [hFdef]; exact rfl
  have e19 : byteAt F 19 = d5 % 256 := by rw [hFdef]; exact rfl
  have e20 : byteAt F 20 = d6 / 256 % 256 := by rw [hFdef]; exact rfl
  have e21 : byteAt F 21 = d6 % 256 := by rw [hFdef]; exact rfl
  have e22 : byteAt F 22 = d7 / 256 % 256 := by rw [hFdef]; exact rfl
  have e23 : byteAt F 23 = d7 % 256 := by rw [hFdef]; exact rfl
  have e24 : byteAt F 24 = s0 / 256 % 256 := by rw [hFdef]; exact rfl
  have e25 : byteAt F 25 = s0 % 256 := by rw [hFdef]; exact rfl
  have e26 : byteAt F 26 = s1 / 256 % 256 := by rw [hFdef]; exact rfl
  have e27 : byteAt F 27 = s1 % 256 := by rw [hFdef]; exact rfl
  have e28 : byteAt F 28 = s2 / 256 % 256 := by rw [hFdef]; exact rfl
  have e29 : byteAt F 29 = s2 % 256 := by rw [hFdef]; exact rfl
  have e30 : byteAt F 30 = s3 / 256 % 256 := by rw [hFdef]; exact rfl
  have e31 : byteAt F 31 = s3 % 256 := by rw [hFdef]; exact rfl
  have e32 : byteAt F 32 = s4 / 256 % 256 := by rw [hFdef]; exact rfl
  have e33 : byteAt F 33 = s4 % 256 := by rw [hFdef]; exact rfl
  have e34 : byteAt F 34 = s5 / 256 % 256 := by rw [hFdef]; exact rfl
  have e35 : byteAt F 35 = s5 % 256 := by rw [hFdef]; exact rfl
  have e36 : byteAt F 36 = s6 / 256 % 256 := by rw [hFdef]; exact rfl
  have e37 : byteAt F 37 = s6 % 256 := by rw [hFdef]; exact rfl
  have e38 : byteAt F 38 = s7 / 256 % 256 := by rw [hFdef]; exact rfl
  have e39 : byteAt F 39 = s7 % 256 := by rw [hFdef]; exact rfl
  have eslice : sliceChecked F 40 60 =
      some (resetTcpHeader p.dst_port p.src_port S (tcp_ack_number p) ck) := by
    rw [hFdef]; exact rfl
  simp only [parse_packet_validated, parse_ipv6_validated, hempty,
    Bool.false_eq_true, if_false, e0, e4, e5, e6, elen, e8, e9, e10, e11, e12,
    e13, e14, e15, e16, e17, e18, e19, e20, e21, e22, e23, e24, e25, e26, e27,
    e28, e29, e30, e31, e32, e33, e34, e35, e36, e37, e38, e39, beU16]
  norm_num [eslice, Option.bind]
  rw [beU16_encode_raw d0 hd.1, beU16_encode_raw d1 hd.2.1,
    beU16_encode_raw d2 hd.2.2.1, beU16_encode_raw d3 hd.2.2.2.1,
    beU16_encode_raw d4 hd.2.2.2.2.1, beU16_encode_raw d5 hd.2.2.2.2.2.1,
    beU16_encode_raw d6 hd.2.2.2.2.2.2.1, beU16_encode_raw d7 hd.2.2.2.2.2.2.2,
    beU16_encode_raw s0 hs.1, beU16_encode_raw s1 hs.2.1,
    beU16_encode_raw s2 hs.2.2.1, beU16_encode_raw s3 hs.2.2.2.1,
    beU16_encode_raw s4 hs.2.2.2.2.1, beU16_encode_raw s5 hs.2.2.2.2.2.1,
    beU16_encode_raw s6 hs.2.2.2.2.2.2.1, beU16_encode_raw s7 hs.2.2.2.2.2.2.2]
  exact parse_reset_tcp_header (.v6 d0 d1 d2 d3 d4 d5 d6 d7)
    (.v6 s0 s1 s2 s3 s4 s5 s6 s7) p.dst_port p.src_port S (tcp_ack_number p)
    ck hsp hdp hseq (tcp_ack_number_lt p)

/-- Field-width well-formedness of a model address: an IPv6 address
has 16-bit segments (an IPv4 one is parsed bytewise and needs no
side condition here). -/
def IpAddrWf : IpAddr → Prop
  | .v4 _ _ _ _ => True
  | .v6 s0 s1 s2 s3 s4 s5 s6 s7 =>
    s0 < 65536 ∧ s1 < 65536 ∧ s2 < 65536 ∧ s3 < 65536 ∧ s4 < 65536 ∧
      s5 < 65536 ∧ s6 < 65536 ∧ s7 < 65536

/-- C2: parsing the frame built by `build_tcp_reset` for a parsed TCP
packet `p` with both endpoints in the same family yields a TCP segment
with flags exactly RST|ACK, the ports of `p` swapped, sequence number
`p.ack_number` when `p` has ACK set (else 0), and acknowledgment
number `p.seq_number + p.payload.length + SYN + FIN` modulo `2 ^ 32`. -/
theorem tcp_reset_roundtrip (p : TcpPacket) (frame : List Nat)
    (hwfs : IpAddrWf p.src) (hwfd : IpAddrWf p.dst)
    (hsp : p.src_port < 65536) (hdp : p.dst_port < 65536)
    (hack : p.ack_number < 4294967296)
    (hbuild : build_tcp_reset p = some frame) :
    parse_packet_validated frame =
      some (.ok (.Tcp
        { src := p.dst, dst := p.src
          src_port := p.dst_port, dst_port := p.src_port
          seq_number := if p.flags.ack then p.ack_number else 0
          ack_number := tcp_ack_number p
          flags := { syn := false, ack := true, fin := false, rst := true }
          payload := [] })) ∧
    tcp_ack_number p =
      (p.seq_number + p.payload.length + (if p.flags.syn then 1 else 0) +
        (if p.flags.fin then 1 else 0)) % 4294967296 := by
  constructor
  · rcases hsrc : p.src with ⟨a, b, c, d⟩ | ⟨s0, s1, s2, s3, s4, s5, s6, s7⟩ <;>
      rcases hdst : p.dst with ⟨e, f, g, h⟩ | ⟨d0, d1, d2, d3, d4, d5, d6, d7⟩ <;>
      rw [build_tcp_reset, hsrc, hdst] at hbuild <;>
      simp only [Option.some.injEq, reduceCtorEq] at hbuild
    · rw [← hbuild]
      exact parse_build_ipv4_tcp_reset p a b c d e f g h hsp hdp hack
    · rw [← hbuild]
      rw [hsrc] at hwfs
      rw [hdst] at hwfd
      exact parse_build_ipv6_tcp_reset p s0 s1 s2 s3 s4 s5 s6 s7
        d0 d1 d2 d3 d4 d5 d6 d7 hsp hdp hack hwfs hwfd
  · unfold tcp_ack_number
    split_ifs <;> omega

/-- Witness for C2 on a concrete IPv4 SYN packet. -/
theorem tcp_reset_roundtrip_witness :
    parse_packet_validated
        ((build_tcp_reset
          { src := .v4 10 0 0 2, dst := .v4 203 0 113 9
            src_port := 5000, dst_port := 443
            seq_number := 7, ack_number := 9
            flags := { syn := true, ack := false, fin := false, rst := false }
            payload := [1, 2, 3] }).getD []) =
      some (.ok (.Tcp
        { src := .v4 203 0 113 9, dst := .v4 10 0 0 2
          src_port := 443, dst_port := 5000
          seq_number := 0
          ack_number := tcp_ack_number
            { src := .v4 10 0 0 2, dst := .v4 203 0 113 9
              src_port := 5000, dst_port := 443
              seq_number := 7, ack_number := 9
              flags := { syn := true, ack := false, fin := false, rst := false }
              payload := [1, 2, 3] }
          flags := { syn := false, ack := true, fin := false, rst := true }
          payload := [] })) ∧
    tcp_ack_number
        { src := .v4 10 0 0 2, dst := .v4 203 0 113 9
          src_port := 5000, dst_port := 443
          seq_number := 7, ack_number := 9
          flags := { syn := true, ack := false, fin := false, rst := false }
          payload := [1, 2, 3] } = 11 := by
  have h := tcp_reset_roundtrip
    { src := .v4 10 0 0 2, dst := .v4 203 0 113 9
      src_port := 5000, dst_port := 443
      seq_number := 7, ack_number := 9
      flags := { syn := true, ack := false, fin := false, rst := false }
      payload := [1, 2, 3] }
    ((build_tcp_reset
      { src := .v4 10 0 0 2, dst := .v4 203 0 113 9
        src_port := 5000, dst_port := 443
        seq_number := 7, ack_number := 9
        flags := { syn := true, ack := false, fin := false, rst := false }
        payload := [1, 2, 3] }).getD [])
    trivial trivial (by norm_num) (by norm_num) (by norm_num) rfl
  refine ⟨h.1, ?_⟩
  rw [h.2]
  norm_num

/-! ## DNS snooper (`dns/mod.rs`, claim C5)

Host names are byte strings; `String::from_utf8_lossy` is the
identity on the ASCII bytes the claims exercise, so labels keep their
raw bytes and `join(".")` is `List.intercalate [46]`.  `HashMap`s are
association lists in insertion order (the claims only inspect
emptiness and single-mapping results, which are order-independent). -/

/-- `DnsMapping` from `dns/mod.rs`. -/
structure DnsMapping where
  host : List Nat
  addresses : List IpAddr
  ttl : Option Nat
  deriving Repr, DecidableEq

/-- The `while` loop of `read_name`: `fuel` is the remaining guard
budget (the loop runs at most `buf.len()` iterations); `pos` is
`position`, `off` the caller-visible offset, `jumped` whether a
compression pointer was followed.  `none` is the `return None` path. -/
def read_name_loop (buf : List Nat) :
    Nat → Nat → Nat → Bool → List (List Nat) →
    Option (List (List Nat) × Nat)
  | 0, _, off, _, labels => some (labels, off)
  | fuel + 1, pos, off, jumped, labels =>
    if pos < buf.length then
      let len := byteAt buf pos
      if len = 0 then
        some (labels, if jumped then off else pos + 1)
      else if len &&& 192 = 192 then
        if buf.length ≤ pos + 1 then none
        else
          read_name_loop buf fuel (((len &&& 63) <<< 8) ||| byteAt buf (pos + 1))
            (if jumped then off else off + 2) true labels
      else
        if buf.length < pos + 1 + len then none
        else
          read_name_loop buf fuel (pos + 1 + len)
            (if jumped then off else pos + 1 + len) jumped
            (labels ++ [(buf.drop (pos + 1)).take len])
    else some (labels, off)

/-- `read_name` from `dns/mod.rs`: returns the name and the updated
read offset, or `none` for a malformed name. -/
def read_name (buf : List Nat) (off : Nat) : Option (List Nat × Nat) :=
  (read_name_loop buf buf.length off off false []).bind fun r =>
    if r.1.isEmpty then none else some (List.intercalate [46] r.1, r.2)

/-- `lookup_roots` from `dns/mod.rs`. -/
def lookup_roots (alias_roots : List (List Nat × List (List Nat)))
    (name : List Nat) : List (List Nat) :=
  (lookupAssoc alias_roots name).getD [name]

/-- `insert_mapping` from `dns/mod.rs`: push the address onto the
existing mapping for `name`, creating it with the answer's TTL if
absent. -/
def insert_mapping (m : List (List Nat × DnsMapping)) (name : List Nat)
    (address : IpAddr) (ttl : Nat) : List (List Nat × DnsMapping) :=
  match m with
  | [] => [(name, ⟨name, [address], some ttl⟩)]
  | (k, v) :: rest =>
    if k = name then
      (k, { v with addresses := v.addresses ++ [address] }) :: rest
    else (k, v) :: insert_mapping rest name address ttl

/-- The CNAME branch's alias-map update: append each root that is not
already recorded for `target`. -/
def addAliasRoots (alias_roots : List (List Nat × List (List Nat)))
    (target : List Nat) (roots : List (List Nat)) :
    List (List Nat × List (List Nat)) :=
  let entry := (lookupAssoc alias_roots target).getD []
  let entryNew := roots.foldl
    (fun acc root => if acc.contains root then acc else acc ++ [root]) entry
  match alias_roots with
  | [] => [(target, entryNew)]
  | (k, v) :: rest =>
    if k = target then (k, entryNew) :: rest
    else (k, v) :: addAliasRoots rest target roots

/-- The question-section walk of `parse_response`. -/
def parse_questions (payload : List Nat) :
    Nat → Nat → Option (List (List Nat) × Nat)
  | 0, off => some ([], off)
  | n + 1, off =>
    (read_name payload off).bind fun r =>
      if payload.length < r.2 + 4 then none
      else
        (parse_questions payload n (r.2 + 4)).bind fun rest =>
          some (r.1 :: rest.1, rest.2)

/-- The answer-section walk of `parse_response`. -/
def parse_answers (payload : List Nat) :
    Nat → Nat → List (List Nat × DnsMapping) →
    List (List Nat × List (List Nat)) →
    Option (List (List Nat × DnsMapping))
  | 0, _, host_map, _ => some host_map
  | n + 1, off, host_map, alias_roots =>
    (read_name payload off).bind fun r =>
      let name := r.1
      let off1 := r.2
      if payload.length < off1 + 10 then none
      else
        let record_type := beU16 (byteAt payload off1) (byteAt payload (off1 + 1))
        let ttl := beU32 (byteAt payload (off1 + 4)) (byteAt payload (off1 + 5))
          (byteAt payload (off1 + 6)) (byteAt payload (off1 + 7))
        let rdlength := beU16 (byteAt payload (off1 + 8)) (byteAt payload (off1 + 9))
        let rdata_start := off1 + 10
        if payload.length < rdata_start + rdlength then none
        else
          let offNext := rdata_start + rdlength
          if record_type = 1 then
            if rdlength = 4 then
              let address : IpAddr := .v4 (byteAt payload rdata_start)
                (byteAt payload (rdata_start + 1)) (byteAt payload (rdata_start + 2))
                (byteAt payload (rdata_start + 3))
              let roots := lookup_roots alias_roots name
              parse_answers payload n offNext
                (roots.foldl (fun m root => insert_mapping m root address ttl)
                  host_map) alias_roots
            else parse_answers payload n offNext host_map alias_roots
          else if record_type = 28 then
            if rdlength = 16 then
              let address : IpAddr := .v6
                (beU16 (byteAt payload rdata_start) (byteAt payload (rdata_start + 1)))
                (beU16 (byteAt payload (rdata_start + 2)) (byteAt payload (rdata_start + 3)))
                (beU16 (byteAt payload (rdata_start + 4)) (byteAt payload (rdata_start + 5)))
                (beU16 (byteAt payload (rdata_start + 6)) (byteAt payload (rdata_start + 7)))
                (beU16 (byteAt payload (rdata_start + 8)) (byteAt payload (rdata_start + 9)))
                (beU16 (byteAt payload (rdata_start + 10)) (byteAt payload (rdata_start + 11)))
                (beU16 (byteAt payload (rdata_start + 12)) (byteAt payload (rdata_start + 13)))
                (beU16 (byteAt payload (rdata_start + 14)) (byteAt payload (rdata_start + 15)))
              let roots := lookup_roots alias_roots name
              parse_answers payload n offNext
                (roots.foldl (fun m root => insert_mapping m root address ttl)
                  host_map) alias_roots
            else parse_answers payload n offNext host_map alias_roots
          else if record_type = 5 then
            match read_name payload rdata_start with
            | some t =>
              let roots := lookup_roots alias_roots name
              if roots.isEmpty then
                parse_answers payload n offNext host_map alias_roots
              else
                parse_answers payload n offNext host_map
                  (addAliasRoots alias_roots t.1 roots)
            | none => parse_answers payload n offNext host_map alias_roots
          else parse_answers payload n offNext host_map alias_roots

/-- `parse_response` from `dns/mod.rs`. -/
def parse_response (payload : List Nat) : List DnsMapping :=
  if payload.length < 12 then []
  else
    let flags := beU16 (byteAt payload 2) (byteAt payload 3)
    if flags &&& 32768 = 0 then []
    else
      let qd_count := beU16 (byteAt payload 4) (byteAt payload 5)
      let an_count := beU16 (byteAt payload 6) (byteAt payload 7)
      match parse_questions payload qd_count 12 with
      | none => []
      | some q =>
        let alias_roots := q.1.foldl
          (fun ar question =>
            if (lookupAssoc ar question).isSome then ar
            else ar ++ [(question, [question])]) []
        match parse_answers payload an_count q.2 [] alias_roots with
        | none => []
        | some host_map => host_map.map Prod.snd

/-- A response whose single answer's name is a compression pointer at
index 19 jumping FORWARD to index 35 (where the name `b` lies behind
the A record): question `a`, answer type A, TTL 60, rdata 1.2.3.4. -/
def forwardPointerResponse : List Nat :=
  [18, 52, 129, 128, 0, 1, 0, 1, 0, 0, 0, 0,
   1, 97, 0,
   0, 1, 0, 1,
   192, 35,
   0, 1,
   0, 1,
   0, 0, 0, 60,
   0, 4,
   1, 2, 3, 4,
   1, 98, 0]

/-- C5 counterexample: the payload holds a forward compression pointer
(at read index 19, target 35 ≥ 19), yet `parse_response` returns a
non-empty mapping list — the claim says a forward pointer yields no
mappings. -/
theorem dns_forward_pointer_counterexample :
    byteAt forwardPointerResponse 19 &&& 192 = 192 ∧
    ((byteAt forwardPointerResponse 19 &&& 63) <<< 8) |||
      byteAt forwardPointerResponse 20 = 35 ∧
    19 ≤ 35 ∧
    parse_response forwardPointerResponse ≠ [] := by
  refine ⟨by decide, by decide, by decide, ?_⟩
  intro hcontra
  have : parse_response forwardPointerResponse =
      [⟨[98], [.v4 1 2 3 4], some 60⟩] := by decide
  rw [this] at hcontra
  exact List.cons_ne_nil _ _ hcontra

/-- C5 (amended): `read_name` bounds its walk by a guard of
`buf.len()` loop iterations (not 10) and follows compression pointers
in either direction — there is no strictly-backwards check.  A forward
pointer is chased like any other: the concrete forward-pointer
response parses to exactly one mapping (host `b` → 1.2.3.4, TTL 60),
and a self-referential pointer loop exhausts the guard and yields no
name rather than hanging. -/
theorem dns_forward_pointer_followed :
    parse_response forwardPointerResponse =
      [⟨[98], [.v4 1 2 3 4], some 60⟩] ∧
    read_name [192, 0] 0 = none := by
  exact ⟨by decide, by decide⟩

/-! ## Checksum verification (`flow_manager/checksum.rs` +
`flow_manager/packet_builder.rs`, claim C6) -/

theorem foldCarry_lt (x : Nat) : foldCarry x < 65536 := by
  induction x using Nat.strong_induction_on with
  | _ x ih =>
    rw [foldCarry]
    split
    · omega
    · exact ih _ (by omega)

theorem foldCarry_le_self (x : Nat) : foldCarry x ≤ x := by
  induction x using Nat.strong_induction_on with
  | _ x ih =>
    rw [foldCarry]
    split
    · exact le_rfl
    · exact le_trans (ih _ (by omega)) (by omega)

theorem foldCarry_mod (x : Nat) : foldCarry x % 65535 = x % 65535 := by
  induction x using Nat.strong_induction_on with
  | _ x ih =>
    rw [foldCarry]
    split
    · rfl
    · rw [ih _ (by omega)]
      omega

theorem foldCarry_ne_zero (x : Nat) (hx : x ≠ 0) : foldCarry x ≠ 0 := by
  induction x using Nat.strong_induction_on with
  | _ x ih =>
    rw [foldCarry]
    split
    · exact hx
    · exact ih _ (by omega) (by omega)

theorem sumWords_eq_sum (init : Nat) (ws : List Nat)
    (h : init + ws.sum < 4294967296) : sumWords init ws = init + ws.sum := by
  induction ws generalizing init with
  | nil => simp [sumWords]
  | cons w rest ih =>
    have hsum : (w :: rest).sum = w + rest.sum := by simp
    have haw : addWrap init w = init + w := by
      unfold addWrap
      exact Nat.mod_eq_of_lt (by omega)
    have htail := ih (init + w) (by omega)
    simp only [sumWords, List.foldl_cons, haw] at htail ⊢
    rw [htail, hsum]
    omega

theorem words_append_even :
    ∀ (l1 l2 : List Nat), l1.length % 2 = 0 →
      words (l1 ++ l2) = words l1 ++ words l2
  | [], l2, _ => by simp [words]
  | [_], _, h => by simp at h
  | a :: b :: rest, l2, h => by
    have hrest : rest.length % 2 = 0 := by
      simp [List.length_cons] at h
      omega
    cases rest with
    | nil =>
      cases l2 with
      | nil => simp [words]
      | cons c l2t =>
        cases l2t with
        | nil => simp [words]
        | cons d l2tt => simp [words]
    | cons r rrest =>
      show words (a :: b :: (r :: rrest ++ l2)) =
        (beU16 a b :: words (r :: rrest)) ++ words l2
      rw [show words (a :: b :: (r :: rrest ++ l2)) =
        beU16 a b :: words (r :: rrest ++ l2) from rfl]
      rw [words_append_even (r :: rrest) l2 hrest]
      rfl

theorem words_sum_bound :
    ∀ l : List Nat, (∀ b ∈ l, b < 256) →
      (words l).sum ≤ (l.length + 1) / 2 * 65535
  | [], _ => by simp [words]
  | [b], h => by
    have hb : b < 256 := h b (by simp)
    simp [words]
    omega
  | a :: b :: rest, h => by
    have ha : a < 256 := h a (by simp)
    have hb : b < 256 := h b (by simp)
    have htail := words_sum_bound rest (fun x hx => h x (by simp [hx]))
    show (beU16 a b :: words rest).sum ≤ ((a :: b :: rest).length + 1) / 2 * 65535
    have hword : beU16 a b ≤ 65535 := by unfold beU16; omega
    have hlen : ((a :: b :: rest).length + 1) / 2 = (rest.length + 1) / 2 + 1 := by
      simp [List.length_cons]
      omega
    rw [hlen]
    simp only [List.sum_cons]
    have : ((rest.length + 1) / 2 + 1) * 65535 =
        (rest.length + 1) / 2 * 65535 + 65535 := by ring
    omega

theorem be16_mem_lt (n b : Nat) (hb : b ∈ be16 n) : b < 256 := by
  simp [be16] at hb
  rcases hb with h | h <;> omega

theorem be32_mem_lt (n b : Nat) (hb : b ∈ be32 n) : b < 256 := by
  simp [be32] at hb
  rcases hb with h | h | h | h <;> omega

/-- The heart of C6: over any even-length prefix `pre` and suffix
`post`, inserting the big-endian ones'-complement checksum computed
with a zeroed checksum field makes the whole ones'-complement fold
verify (come out 0). -/
theorem checksum_insert_verifies (pre post : List Nat)
    (hpre : pre.length % 2 = 0)
    (hbound : (words (pre ++ [0, 0] ++ post)).sum + 65535 < 4294967296) :
    ones_complement 0
      (pre ++ be16 (ones_complement 0 (pre ++ [0, 0] ++ post)) ++ post) = 0 := by
  set S0 := (words (pre ++ [0, 0] ++ post)).sum with hS0
  set ck := ones_complement 0 (pre ++ [0, 0] ++ post) with hck
  have hsw0 : sumWords 0 (words (pre ++ [0, 0] ++ post)) = S0 := by
    have := sumWords_eq_sum 0 (words (pre ++ [0, 0] ++ post)) (by omega)
    simpa [hS0] using this
  have hckval : ck = 65535 - foldCarry S0 := by
    rw [hck]
    unfold ones_complement
    rw [hsw0]
  have hFlt : foldCarry S0 < 65536 := foldCarry_lt S0
  have hFle : foldCarry S0 ≤ S0 := foldCarry_le_self S0
  have hFmod : foldCarry S0 % 65535 = S0 % 65535 := foldCarry_mod S0
  have hck_le : ck ≤ 65535 := by omega
  have hw0 : words (pre ++ [0, 0] ++ post) = words pre ++ [0] ++ words post := by
    rw [List.append_assoc, words_append_even pre ([0, 0] ++ post) hpre]
    have : words ([0, 0] ++ post) = 0 :: words post := by
      show words (0 :: 0 :: post) = 0 :: words post
      rw [show words (0 :: 0 :: post) = beU16 0 0 :: words post from rfl]
      norm_num [beU16]
    rw [this]
    simp
  have hwc : words (pre ++ be16 ck ++ post) = words pre ++ [ck] ++ words post := by
    rw [List.append_assoc, words_append_even pre (be16 ck ++ post) hpre]
    have hckwd : beU16 (ck / 256 % 256) (ck % 256) = ck :=
      beU16_encode ck (by omega)
    have : words (be16 ck ++ post) = ck :: words post := by
      show words (ck / 256 % 256 :: ck % 256 :: post) = ck :: words post
      rw [show words (ck / 256 % 256 :: ck % 256 :: post) =
        beU16 (ck / 256 % 256) (ck % 256) :: words post from rfl, hckwd]
    rw [this]
    simp
  have hS0split : S0 = (words pre).sum + (words post).sum := by
    rw [hS0, hw0]
    simp
  have hS1 : (words (pre ++ be16 ck ++ post)).sum = S0 + ck := by
    rw [hwc]
    simp
    omega
  unfold ones_complement
  rw [sumWords_eq_sum 0 _ (by rw [hS1]; omega), Nat.zero_add, hS1]
  have hmod0 : (S0 + ck) % 65535 = 0 := by omega
  have hne0 : S0 + ck ≠ 0 := by
    have hF0 : foldCarry 0 = 0 := by
      have := foldCarry_le_self 0
      omega
    by_cases hS0z : S0 = 0
    · rw [hS0z] at hckval
      rw [hF0] at hckval
      omega
    · omega
  have h3 := foldCarry_mod (S0 + ck)
  have h4 := foldCarry_lt (S0 + ck)
  have h5 := foldCarry_ne_zero (S0 + ck) hne0
  omega

/-- Model of `smoltcp::wire::IpAddress` (raw octets, as stored in a
`FlowKey`). -/
inductive IpAddress where
  | ipv4 (octets : List Nat)
  | ipv6 (octets : List Nat)
  deriving Repr, DecidableEq

/-- `FlowKind` from `flow_manager/state.rs`. -/
inductive FlowKind where
  | Tcp
  | Udp
  deriving Repr, DecidableEq

/-- `FlowKey` from `flow_manager/state.rs`. -/
structure FlowKey where
  src_ip : IpAddress
  src_port : Nat
  dst_ip : IpAddress
  dst_port : Nat
  kind : FlowKind
  deriving Repr, DecidableEq

/-- `build_ipv4_udp_response` from `flow_manager/packet_builder.rs`:
`src`/`dst` are the four octets of the frame's source (server) and
destination (client) address. -/
def build_ipv4_udp_response (src dst : List Nat) (src_port dst_port : Nat)
    (payload : List Nat) : List Nat :=
  let udp_len := 8 + payload.length
  let total_len := 20 + udp_len
  let udp0 := be16 src_port ++ be16 dst_port ++ be16 udp_len ++ [0, 0] ++
    payload
  let udp_checksum := udp_ipv4 src dst udp0
  let udp := be16 src_port ++ be16 dst_port ++ be16 udp_len ++
    be16 udp_checksum ++ payload
  let ip0 := [69, 0] ++ be16 total_len ++ be16 0 ++ be16 0 ++ [64, 17] ++
    [0, 0] ++ src ++ dst
  let ip_cksum := ipv4_header ip0
  let ip := [69, 0] ++ be16 total_len ++ be16 0 ++ be16 0 ++ [64, 17] ++
    be16 ip_cksum ++ src ++ dst
  ip ++ udp

/-- `build_ipv6_udp_response` from `flow_manager/packet_builder.rs`:
`src`/`dst` are the sixteen octets of the frame's source and
destination address. -/
def build_ipv6_udp_response (src dst : List Nat) (src_port dst_port : Nat)
    (payload : List Nat) : List Nat :=
  let udp_len := 8 + payload.length
  let udp0 := be16 src_port ++ be16 dst_port ++ be16 udp_len ++ [0, 0] ++
    payload
  let udp_checksum := udp_ipv6 src dst udp0
  let udp := be16 src_port ++ be16 dst_port ++ be16 udp_len ++
    be16 udp_checksum ++ payload
  let ip := [96, 0, 0, 0] ++ be16 udp_len ++ [17, 64] ++ src ++ dst
  ip ++ udp

/-- `build_udp_response` from `flow_manager/packet_builder.rs`: the key
has `src = client` and `dst = server`, so the response swaps them;
mixed families yield `None`. -/
def build_udp_response (key : FlowKey) (payload : List Nat) :
    Option (List Nat) :=
  match key.src_ip, key.dst_ip with
  | .ipv4 client, .ipv4 server =>
    some (build_ipv4_udp_response server client key.dst_port key.src_port
      payload)
  | .ipv6 client, .ipv6 server =>
    some (build_ipv6_udp_response server client key.dst_port key.src_port
      payload)
  | _, _ => none

theorem mem_append_lt {l1 l2 : List Nat} (h1 : ∀ b ∈ l1, b < 256)
    (h2 : ∀ b ∈ l2, b < 256) : ∀ b ∈ l1 ++ l2, b < 256 := by
  intro b hb
  rcases List.mem_append.mp hb with hmem | hmem
  · exact h1 b hmem
  · exact h2 b hmem

theorem be16_all_lt (n : Nat) : ∀ b ∈ be16 n, b < 256 :=
  fun b hb => be16_mem_lt n b hb

theorem be32_all_lt (n : Nat) : ∀ b ∈ be32 n, b < 256 :=
  fun b hb => be32_mem_lt n b hb

theorem build_ipv4_udp_response_verifies (src dst : List Nat)
    (sp dp : Nat) (payload : List Nat)
    (hs4 : src.length = 4) (hd4 : dst.length = 4)
    (hsb : ∀ b ∈ src, b < 256) (hdb : ∀ b ∈ dst, b < 256)
    (hpb : ∀ b ∈ payload, b < 256)
    (hfit : 28 + payload.length ≤ 65535) :
    ipv4_header ((build_ipv4_udp_response src dst sp dp payload).take 20) = 0 ∧
    udp_ipv4 src dst ((build_ipv4_udp_response src dst sp dp payload).drop 20)
      = 0 := by
  have hiplen : ([69, 0] ++ be16 (20 + (8 + payload.length)) ++ be16 0 ++
      be16 0 ++ [64, 17] ++
      be16 (ipv4_header ([69, 0] ++ be16 (20 + (8 + payload.length)) ++
        be16 0 ++ be16 0 ++ [64, 17] ++ [0, 0] ++ src ++ dst)) ++
      src ++ dst).length = 20 := by
    simp [be16, hs4, hd4]
  have hframe : build_ipv4_udp_response src dst sp dp payload =
      ([69, 0] ++ be16 (20 + (8 + payload.length)) ++ be16 0 ++ be16 0 ++
        [64, 17] ++
        be16 (ipv4_header ([69, 0] ++ be16 (20 + (8 + payload.length)) ++
          be16 0 ++ be16 0 ++ [64, 17] ++ [0, 0] ++ src ++ dst)) ++
        src ++ dst) ++
      (be16 sp ++ be16 dp ++ be16 (8 + payload.length) ++
        be16 (udp_ipv4 src dst (be16 sp ++ be16 dp ++
          be16 (8 + payload.length) ++ [0, 0] ++ payload)) ++ payload) := rfl
  rw [hframe, List.take_left' hiplen, List.drop_left' hiplen]
  constructor
  · -- IP header checksum verifies
    have hbytes : ∀ b ∈ [69, 0] ++ be16 (20 + (8 + payload.length)) ++
        be16 0 ++ be16 0 ++ [64, 17] ++ [0, 0] ++ (src ++ dst), b < 256 := by
      refine mem_append_lt (mem_append_lt (mem_append_lt (mem_append_lt
        (mem_append_lt (mem_append_lt (by decide) (be16_all_lt _))
          (be16_all_lt _)) (be16_all_lt _)) (by decide)) (by decide))
        (mem_append_lt hsb hdb)
    have hlen20 : ([69, 0] ++ be16 (20 + (8 + payload.length)) ++ be16 0 ++
        be16 0 ++ [64, 17] ++ [0, 0] ++ (src ++ dst)).length = 20 := by
      simp [be16, hs4, hd4]
    have hbound := words_sum_bound _ hbytes
    rw [hlen20] at hbound
    have hins := checksum_insert_verifies
      ([69, 0] ++ be16 (20 + (8 + payload.length)) ++ be16 0 ++ be16 0 ++
        [64, 17]) (src ++ dst) (by simp [be16]) (by omega)
    simp only [ipv4_header] at hins ⊢
    simp only [List.append_assoc] at hins ⊢
    exact hins
  · -- UDP checksum over the pseudo-header verifies
    have hseglen : ∀ a x : Nat, (be16 sp ++ be16 dp ++ be16 a ++ be16 x ++
        payload).length = 8 + payload.length := by
      intro a x
      simp [be16]
      omega
    have hseg0len : (be16 sp ++ be16 dp ++ be16 (8 + payload.length) ++
        [0, 0] ++ payload).length = 8 + payload.length := by
      simp [be16]
      omega
    have hbytes : ∀ b ∈ src ++ dst ++ [0, 17] ++ be16 (8 + payload.length) ++
        be16 sp ++ be16 dp ++ be16 (8 + payload.length) ++ [0, 0] ++ payload,
        b < 256 := by
      refine mem_append_lt (mem_append_lt (mem_append_lt (mem_append_lt
        (mem_append_lt (mem_append_lt (mem_append_lt (mem_append_lt hsb hdb)
          (by decide)) (be16_all_lt _)) (be16_all_lt _)) (be16_all_lt _))
        (be16_all_lt _)) (by decide)) hpb
    have hlenlist : (src ++ dst ++ [0, 17] ++ be16 (8 + payload.length) ++
        be16 sp ++ be16 dp ++ be16 (8 + payload.length) ++ [0, 0] ++
        payload).length = 20 + payload.length := by
      simp [be16, hs4, hd4]
      omega
    have hbound := words_sum_bound _ hbytes
    rw [hlenlist] at hbound
    have hins := checksum_insert_verifies
      (src ++ dst ++ [0, 17] ++ be16 (8 + payload.length) ++ be16 sp ++
        be16 dp ++ be16 (8 + payload.length)) payload
      (by simp [be16, hs4, hd4])
      (by
        have hdiv : (20 + payload.length + 1) / 2 ≤ 32764 := by omega
        have : (20 + payload.length + 1) / 2 * 65535 ≤ 32764 * 65535 :=
          Nat.mul_le_mul_right _ hdiv
        simp only [List.append_assoc] at hbound ⊢
        omega)
    simp only [udp_ipv4, hseglen, hseg0len] at hins ⊢
    simp only [List.append_assoc] at hins ⊢
    exact hins

theorem build_ipv6_udp_response_verifies (src dst : List Nat)
    (sp dp : Nat) (payload : List Nat)
    (hs16 : src.length = 16) (hd16 : dst.length = 16)
    (hsb : ∀ b ∈ src, b < 256) (hdb : ∀ b ∈ dst, b < 256)
    (hpb : ∀ b ∈ payload, b < 256)
    (hfit : 8 + payload.length ≤ 65535) :
    udp_ipv6 src dst ((build_ipv6_udp_response src dst sp dp payload).drop 40)
      = 0 := by
  have hiplen : ([96, 0, 0, 0] ++ be16 (8 + payload.length) ++ [17, 64] ++
      src ++ dst).length = 40 := by
    simp [be16, hs16, hd16]
  have hframe : build_ipv6_udp_response src dst sp dp payload =
      ([96, 0, 0, 0] ++ be16 (8 + payload.length) ++ [17, 64] ++ src ++ dst) ++
      (be16 sp ++ be16 dp ++ be16 (8 + payload.length) ++
        be16 (udp_ipv6 src dst (be16 sp ++ be16 dp ++
          be16 (8 + payload.length) ++ [0, 0] ++ payload)) ++ payload) := rfl
  rw [hframe, List.drop_left' hiplen]
  have hseglen : ∀ a x : Nat, (be16 sp ++ be16 dp ++ be16 a ++ be16 x ++
      payload).length = 8 + payload.length := by
    intro a x
    simp [be16]
    omega
  have hseg0len : (be16 sp ++ be16 dp ++ be16 (8 + payload.length) ++
      [0, 0] ++ payload).length = 8 + payload.length := by
    simp [be16]
    omega
  have hbytes : ∀ b ∈ src ++ dst ++ be32 (8 + payload.length) ++
      [0, 0, 0, 17] ++ be16 sp ++ be16 dp ++ be16 (8 + payload.length) ++
      [0, 0] ++ payload, b < 256 := by
    refine mem_append_lt (mem_append_lt (mem_append_lt (mem_append_lt
      (mem_append_lt (mem_append_lt (mem_append_lt (mem_append_lt hsb hdb)
        (be32_all_lt _)) (by decide)) (be16_all_lt _)) (be16_all_lt _))
      (be16_all_lt _)) (by decide)) hpb
  have hlenlist : (src ++ dst ++ be32 (8 + payload.length) ++
      [0, 0, 0, 17] ++ be16 sp ++ be16 dp ++ be16 (8 + payload.length) ++
      [0, 0] ++ payload).length = 48 + payload.length := by
    simp [be16, be32, hs16, hd16]
    omega
  have hbound := words_sum_bound _ hbytes
  rw [hlenlist] at hbound
  have hins := checksum_insert_verifies
    (src ++ dst ++ be32 (8 + payload.length) ++ [0, 0, 0, 17] ++ be16 sp ++
      be16 dp ++ be16 (8 + payload.length)) payload
    (by simp [be16, be32, hs16, hd16])
    (by
      have hdiv : (48 + payload.length + 1) / 2 ≤ 32788 := by omega
      have : (48 + payload.length + 1) / 2 * 65535 ≤ 32788 * 65535 :=
        Nat.mul_le_mul_right _ hdiv
      simp only [List.append_assoc] at hbound ⊢
      omega)
  simp only [udp_ipv6, hseglen, hseg0len] at hins ⊢
  simp only [List.append_assoc] at hins ⊢
  exact hins

/-- C6: for a flow key with both endpoints IPv4 (resp. both IPv6) and
any payload whose frame lengths fit the 16-bit length fields, the
frame built by `build_udp_response` carries an IPv4 header checksum
that verifies against the built header (the repo's own
ones'-complement fold over the stored header comes out 0) and a UDP
checksum that verifies over the pseudo-header plus UDP segment; the
IPv6 variant's UDP checksum verifies over the IPv6 pseudo-header. -/
theorem udp_response_at_rest_valid (key : FlowKey) (payload : List Nat)
    (hpb : ∀ b ∈ payload, b < 256) :
    (∀ client server : List Nat,
      key.src_ip = .ipv4 client → key.dst_ip = .ipv4 server →
      client.length = 4 → server.length = 4 →
      (∀ b ∈ client, b < 256) → (∀ b ∈ server, b < 256) →
      28 + payload.length ≤ 65535 →
      ∃ frame, build_udp_response key payload = some frame ∧
        ipv4_header (frame.take 20) = 0 ∧
        udp_ipv4 server client (frame.drop 20) = 0) ∧
    (∀ client server : List Nat,
      key.src_ip = .ipv6 client → key.dst_ip = .ipv6 server →
      client.length = 16 → server.length = 16 →
      (∀ b ∈ client, b < 256) → (∀ b ∈ server, b < 256) →
      8 + payload.length ≤ 65535 →
      ∃ frame, build_udp_response key payload = some frame ∧
        udp_ipv6 server client (frame.drop 40) = 0) := by
  constructor
  · intro client server hsrc hdst hc4 hs4 hcb hsb hfit
    refine ⟨build_ipv4_udp_response server client key.dst_port key.src_port
      payload, ?_, ?_⟩
    · unfold build_udp_response
      rw [hsrc, hdst]
    · exact build_ipv4_udp_response_verifies server client key.dst_port
        key.src_port payload hs4 hc4 hsb hcb hpb hfit
  · intro client server hsrc hdst hc16 hs16 hcb hsb hfit
    refine ⟨build_ipv6_udp_response server client key.dst_port key.src_port
      payload, ?_, ?_⟩
    · unfold build_udp_response
      rw [hsrc, hdst]
    · exact build_ipv6_udp_response_verifies server client key.dst_port
        key.src_port payload hs16 hc16 hsb hcb hpb hfit

/-- Witness for C6: a concrete IPv4 flow key (10.0.0.2:5500 →
198.18.0.42:8080) with payload [9, 8, 7]. -/
theorem udp_response_at_rest_valid_witness :
    ∃ frame, build_udp_response
        ⟨.ipv4 [10, 0, 0, 2], 5500, .ipv4 [198, 18, 0, 42], 8080, .Udp⟩
        [9, 8, 7] = some frame ∧
      ipv4_header (frame.take 20) = 0 ∧
      udp_ipv4 [198, 18, 0, 42] [10, 0, 0, 2] (frame.drop 20) = 0 := by
  exact (udp_response_at_rest_valid
    ⟨.ipv4 [10, 0, 0, 2], 5500, .ipv4 [198, 18, 0, 42], 8080, .Udp⟩
    [9, 8, 7] (by decide)).1 [10, 0, 0, 2] [198, 18, 0, 42] rfl rfl
    (by decide) (by decide) (by decide) (by decide) (by decide)

end EngineBridge
